import Mathlib

/-!
Verification development for the hack-vm translator (src/src/lib.rs).

The development has four layers:

* a decimal-representation toolkit relating `Nat.repr` (used by the
  translator when it splices counters and indices into label text) to an
  explicit digit function, giving the roundtrip and injectivity facts the
  label-uniqueness claims need;
* a shallow embedding of the translator itself: `CodeWriter` with one Lean
  function per Rust method, producing exactly the strings the Rust code
  produces, and `Parser` with `advance` / `reset` / `hasMoreLines`;
* a small semantics for the generated Hack assembly: a line parser from the
  emitted text to an instruction list, a straight-line executor, and a
  fuelled machine with label resolution for programs with jumps;
* the claim theorems.

Machine words are modelled as unbounded `Int` (no claim here depends on
16-bit wraparound) and the output stream as an accumulated `String`, with
the stream write position taken to be the length of the accumulated text
(all emitted text is ASCII, so characters and bytes coincide).
-/

/-! ### Decimal representation toolkit -/

/-- Numeric value of a decimal digit character. -/
def charVal (c : Char) : Nat := c.toNat - 48

/-- Reference digit-string function: most significant digit first. -/
def decChars (n : Nat) : List Char :=
  if h : n < 10 then [Nat.digitChar n]
  else decChars (n / 10) ++ [Nat.digitChar (n % 10)]
decreasing_by exact Nat.div_lt_self (by omega) (by omega)

/-- Value of a digit string, most significant digit first. -/
def strNatVal (l : List Char) : Nat := l.foldl (fun a c => 10 * a + charVal c) 0

/-! ### Character-list utilities for the generated-assembly parser -/

/-- Split a character list into lines at newline characters. -/
def splitLines : List Char → List (List Char)
  | [] => [[]]
  | c :: rest =>
    if c = '\n' then [] :: splitLines rest
    else
      match splitLines rest with
      | [] => [[c]]
      | h :: t => (c :: h) :: t

/-- Truncate a line at the first occurrence of the comment marker. -/
def dropComment : List Char → List Char
  | [] => []
  | c :: rest =>
    if c = '/' ∧ rest.head? = some '/' then []
    else c :: dropComment rest

/-- Whitespace trim on both ends of a character list. -/
def trimChars (l : List Char) : List Char :=
  ((l.dropWhile Char.isWhitespace).reverse.dropWhile Char.isWhitespace).reverse

/-- Split at the first occurrence of a separator character, if present. -/
def splitAtCh (sep : Char) : List Char → Option (List Char × List Char)
  | [] => none
  | c :: rest =>
    if c = sep then some ([], rest)
    else (splitAtCh sep rest).map (fun p => (c :: p.1, p.2))

/-! ### Hack assembly instructions and their semantics -/

/-- A parsed Hack assembly instruction: an address instruction, a compute
instruction `dest=comp` / `comp;jump`, or a label pseudo-instruction. -/
inductive Instr where
  | addr (s : String)
  | cinstr (dest comp jump : String)
  | label (s : String)
deriving DecidableEq

/-- Classify a nonempty cleaned-up line. -/
def classifyLine (c : Char) (rest : List Char) : Instr :=
  if c = '(' then .label ⟨rest.dropLast⟩
  else if c = '@' then .addr ⟨rest⟩
  else
    match splitAtCh '=' (c :: rest) with
    | some p => .cinstr ⟨p.1⟩ ⟨p.2⟩ ""
    | none =>
      match splitAtCh ';' (c :: rest) with
      | some p => .cinstr "" ⟨p.1⟩ ⟨p.2⟩
      | none => .cinstr "" ⟨c :: rest⟩ ""

/-- Parse one line of generated assembly (strip comment, trim, classify). -/
def parseLine (l : List Char) : Option Instr :=
  match trimChars (dropComment l) with
  | [] => none
  | c :: rest => some (classifyLine c rest)

/-- Parse a character list of generated assembly into instructions. -/
def parseChars (l : List Char) : List Instr :=
  (splitLines l).filterMap parseLine

/-- Parse emitted assembly text into instructions. -/
def parseAsm (s : String) : List Instr := parseChars s.data

/-- Machine state: the A and D registers and the RAM. -/
structure Mach where
  A : Int
  D : Int
  ram : Int → Int

/-- Two's complement bitwise AND on unbounded integers. -/
def intAnd : Int → Int → Int
  | .ofNat m, .ofNat n => .ofNat (Nat.land m n)
  | .ofNat m, .negSucc n => .ofNat (Nat.ldiff m n)
  | .negSucc m, .ofNat n => .ofNat (Nat.ldiff n m)
  | .negSucc m, .negSucc n => .negSucc (Nat.lor m n)

/-- Two's complement bitwise OR on unbounded integers. -/
def intOr : Int → Int → Int
  | .ofNat m, .ofNat n => .ofNat (Nat.lor m n)
  | .ofNat m, .negSucc n => .negSucc (Nat.ldiff n m)
  | .negSucc m, .ofNat n => .negSucc (Nat.ldiff m n)
  | .negSucc m, .negSucc n => .negSucc (Nat.land m n)

/-- Evaluate a compute mnemonic given the A, D registers and M = RAM[A]. -/
def evalComp (c : String) (a d m : Int) : Option Int :=
  if c = "0" then some 0
  else if c = "1" then some 1
  else if c = "-1" then some (-1)
  else if c = "D" then some d
  else if c = "A" then some a
  else if c = "M" then some m
  else if c = "!D" then some (-d - 1)
  else if c = "-D" then some (-d)
  else if c = "D+1" then some (d + 1)
  else if c = "D-1" then some (d - 1)
  else if c = "A-1" then some (a - 1)
  else if c = "M+1" then some (m + 1)
  else if c = "M-1" then some (m - 1)
  else if c = "D+A" then some (d + a)
  else if c = "D-A" then some (d - a)
  else if c = "A-D" then some (a - d)
  else if c = "D&A" then some (intAnd d a)
  else if c = "D|A" then some (intOr d a)
  else none

/-- Apply a destination mnemonic: write the computed value to each named
register; a memory write goes to RAM[A] for the pre-instruction A. -/
def applyDest (dest : String) (v : Int) (m : Mach) : Mach :=
  { A := if dest.data.contains 'A' then v else m.A
    D := if dest.data.contains 'D' then v else m.D
    ram := if dest.data.contains 'M' then Function.update m.ram m.A v else m.ram }

/-- Is a symbol a plain decimal numeral? -/
def isNumericStr (s : String) : Bool := !s.data.isEmpty && s.data.all Char.isDigit

/-- Predefined Hack register symbols. -/
def builtinVal (s : String) : Option Int :=
  if s = "SP" then some 0
  else if s = "LCL" then some 1
  else if s = "ARG" then some 2
  else if s = "THIS" then some 3
  else if s = "THAT" then some 4
  else if s = "R13" then some 13
  else if s = "R14" then some 14
  else if s = "R15" then some 15
  else none

/-- Resolve an address-instruction symbol for straight-line execution:
numerals and built-in registers directly, anything else via `env`. -/
def resolveSym (env : String → Int) (s : String) : Int :=
  if isNumericStr s then Int.ofNat (strNatVal s.data)
  else
    match builtinVal s with
    | some v => v
    | none => env s

/-- Evaluate a jump mnemonic on the computed value. -/
def evalJump (j : String) (v : Int) : Bool :=
  if j = "JMP" then true
  else if j = "JEQ" then decide (v = 0)
  else if j = "JNE" then decide (v ≠ 0)
  else if j = "JLT" then decide (v < 0)
  else if j = "JGT" then decide (0 < v)
  else if j = "JLE" then decide (v ≤ 0)
  else if j = "JGE" then decide (0 ≤ v)
  else false

/-- Execute one instruction of straight-line code (jumps are rejected,
labels are no-ops). -/
def execInstr (env : String → Int) (m : Mach) : Instr → Option Mach
  | .addr s => some { m with A := resolveSym env s }
  | .label _ => some m
  | .cinstr dest c j =>
    if j = "" then (evalComp c m.A m.D (m.ram m.A)).map (applyDest dest · m) else none

/-- Execute a straight-line instruction list. -/
def execList (env : String → Int) : List Instr → Mach → Option Mach
  | [], m => some m
  | i :: rest, m =>
    match execInstr env m i with
    | none => none
    | some m' => execList env rest m'

/-! ### Fuelled machine for programs with jumps -/

/-- ROM of a program: the instructions without label pseudo-instructions. -/
def romOf (prog : List Instr) : List Instr :=
  prog.filter (fun i => match i with | .label _ => false | _ => true)

/-- ROM address of a label: labels bind to the next real instruction. -/
def labelAddrGo (s : String) (acc : Nat) : List Instr → Option Nat
  | [] => none
  | .label s' :: rest => if s' = s then some acc else labelAddrGo s acc rest
  | _ :: rest => labelAddrGo s (acc + 1) rest

/-- ROM address of a label in a program. -/
def labelAddr (prog : List Instr) (s : String) : Option Nat := labelAddrGo s 0 prog

/-- Resolve an address symbol during a full run: numerals, then built-in
registers, then program labels, then the external environment. -/
def resolveRun (env : String → Int) (prog : List Instr) (s : String) : Int :=
  if isNumericStr s then Int.ofNat (strNatVal s.data)
  else
    match builtinVal s with
    | some v => v
    | none =>
      match labelAddr prog s with
      | some a => Int.ofNat a
      | none => env s

/-- A machine configuration: machine state plus program counter. -/
structure Config where
  mach : Mach
  pc : Nat

/-- One step of the fuelled machine; `none` when the program counter is past
the end of the ROM or an instruction is not executable. -/
def step (env : String → Int) (prog : List Instr) (cfg : Config) : Option Config :=
  match (romOf prog).get? cfg.pc with
  | none => none
  | some (.label _) => none
  | some (.addr s) =>
    some ⟨{ cfg.mach with A := resolveRun env prog s }, cfg.pc + 1⟩
  | some (.cinstr dest c j) =>
    match evalComp c cfg.mach.A cfg.mach.D (cfg.mach.ram cfg.mach.A) with
    | none => none
    | some v =>
      let m' := applyDest dest v cfg.mach
      if j = "" then some ⟨m', cfg.pc + 1⟩
      else if evalJump j v then some ⟨m', m'.A.toNat⟩
      else some ⟨m', cfg.pc + 1⟩

/-- Run the machine for at most the given fuel; stops at a stuck state. -/
def runMany (env : String → Int) (prog : List Instr) : Nat → Config → Config
  | 0, cfg => cfg
  | fuel + 1, cfg =>
    match step env prog cfg with
    | none => cfg
    | some cfg' => runMany env prog fuel cfg'

/-! ### Embedding of the translator (src/src/lib.rs)

`CodeWriter` carries the per-unit context of the Rust struct; the output
stream and the standard-error stream are modelled as accumulated strings.
Each Lean function below mirrors one Rust method and produces exactly the
text the Rust method writes. Indices are `Int` (Rust `i16`); counters are
`Nat` (Rust `usize`); Rust `to_string`/`{}` formatting of integers is
`Int.repr` / `Nat.repr`. -/

/-- Command classification, mirroring `CommandType` in the source. -/
inductive CommandType where
  | Arithmetic (op : String)
  | Push
  | Pop
  | Label
  | Goto
  | If
  | Function
  | Return
  | Call
  | Empty
deriving DecidableEq

/-- Label kinds, mirroring `LabelType` in the source. -/
inductive LabelType where
  | Static
  | FunctionLabel
  | FunctionCall
  | FunctionRet
deriving DecidableEq

/-- The emitter state, mirroring `CodeWriter` in the source; `out` is the
accumulated output stream, `errlog` the accumulated standard-error text. -/
structure CodeWriter where
  out : String
  errlog : String
  nspace : String
  curFunc : String
  callCount : Nat
deriving DecidableEq

/-- `CodeWriter::new` with an empty output stream. -/
def newCodeWriter : CodeWriter := ⟨"", "", "", "", 0⟩

/-- `CodeWriter::set_namespace`. -/
def setNamespace (w : CodeWriter) (newNamespace : String) : CodeWriter :=
  { w with nspace := newNamespace }

/-- Append emitted text to the output stream (`write_all`). -/
def appendOut (w : CodeWriter) (s : String) : CodeWriter :=
  { w with out := w.out ++ s }

/-- Append diagnostic text to standard error (`eprint!`). -/
def appendErr (w : CodeWriter) (s : String) : CodeWriter :=
  { w with errlog := w.errlog ++ s }

/-- `CodeWriter::map_vreg`. -/
def mapVreg (register : String) : String :=
  if register = "local" then "LCL"
  else if register = "argument" then "ARG"
  else if register = "this" then "THIS"
  else if register = "that" then "THAT"
  else register

/-- `CodeWriter::decrement_sp`. -/
def decrementSp : String := "@SP\n AM=M-1\n"

/-- `CodeWriter::pop_d`. -/
def popD : String := decrementSp ++ " D=M // pop D\n"

/-- `CodeWriter::pop_a`. -/
def popA : String := decrementSp ++ " A=M // pop A\n"

/-- `CodeWriter::push_d`. -/
def pushD : String := "@SP\n A=M\n M=D\n @SP\n M=M+1 // push D\n"

/-- `CodeWriter::push_m`. -/
def pushM : String := "D=M\n " ++ pushD

/-- `CodeWriter::load_const`. -/
def loadConst (val : Int) : String := "@" ++ Int.repr val ++ "\n D=A\n"

/-- `CodeWriter::push_const`. -/
def pushConst (val : Int) : String := loadConst val ++ pushD

/-- `CodeWriter::push_label`. -/
def pushLabel (labelName : String) : String := "@" ++ labelName ++ "\n" ++ pushM

/-- `CodeWriter::load_pointer_segment`. -/
def loadPointerSegment (index : Int) : String :=
  let segment := if index = 0 then "THIS" else "THAT"
  "@" ++ segment ++ "\n"

/-- `CodeWriter::get_label`; returns the label and the updated emitter state
(the `FunctionRet` kind consumes one value of the call-site counter). -/
def getLabel (w : CodeWriter) (labelType : LabelType) (labelName : Option String) :
    String × CodeWriter :=
  let ln := labelName.getD ""
  match labelType with
  | .Static => (w.nspace ++ "." ++ ln, w)
  | .FunctionCall => (w.nspace ++ "." ++ w.curFunc, w)
  | .FunctionRet =>
    (w.nspace ++ "." ++ w.curFunc ++ "$ret." ++ Nat.repr w.callCount,
      { w with callCount := w.callCount + 1 })
  | .FunctionLabel => (w.nspace ++ "." ++ w.curFunc ++ "$" ++ ln, w)

/-- `CodeWriter::load_vreg_address`. -/
def loadVregAddress (segment : String) (index : Int) (targetReg : Char) : String :=
  let seg := mapVreg segment
  "@" ++ Int.repr index ++ "\n D=A\n @" ++ seg ++ "\n A=M\n " ++
    String.singleton targetReg ++ "=D+A\n"

/-- `CodeWriter::load_static_address`. -/
def loadStaticAddress (w : CodeWriter) (index : Int) : String × CodeWriter :=
  let p := getLabel w .Static (some (Int.repr index))
  ("@" ++ p.1 ++ "\n", p.2)

/-- The diagnostic emitted for `temp` indices above 7. -/
def tempWarn : String :=
  "// Warning: access to segment 'temp' above index 7 will cause overflow related errors\n"

/-- `CodeWriter::write_push_pop`: emits the push/pop templates; the `temp`
arms also emit `tempWarn` to standard error when the index exceeds 7; the
catch-all arm writes nothing. -/
def writePushPop (w : CodeWriter) (command : CommandType) (segment : String)
    (index : Int) : CodeWriter :=
  let pushComment := "// push " ++ segment ++ " " ++ Int.repr index ++ "\n\n"
  let popComment := "// pop " ++ segment ++ " " ++ Int.repr index ++ "\n\n"
  match command with
  | .Push =>
    if segment = "pointer" then
      appendOut w (loadPointerSegment index ++ "D=M\n " ++ pushD ++ pushComment)
    else if segment = "static" then
      let p := loadStaticAddress w index
      appendOut p.2 (p.1 ++ "D=M\n" ++ pushD ++ pushComment)
    else if segment = "constant" then
      appendOut w (pushConst index ++ pushComment)
    else if segment = "temp" then
      let errorComment := if 7 < index then tempWarn else ""
      let w₁ := if 7 < index then appendErr w tempWarn else w
      appendOut w₁ (loadConst index ++ "@5\n A=D+A\n D=M\n" ++ pushD ++
        pushComment ++ errorComment)
    else
      appendOut w (loadVregAddress segment index 'A' ++ "D=M\n " ++ pushD ++ pushComment)
  | .Pop =>
    if segment = "pointer" then
      appendOut w (popD ++ loadPointerSegment index ++ "M=D\n" ++ popComment)
    else if segment = "static" then
      let p := loadStaticAddress w index
      appendOut p.2 (popD ++ p.1 ++ "M=D\n" ++ popComment)
    else if segment = "constant" then
      appendOut w (popD ++ "@" ++ Int.repr index ++ "\n M=D\n" ++ popComment)
    else if segment = "temp" then
      let errorComment := if 7 < index then tempWarn else ""
      let w₁ := if 7 < index then appendErr w tempWarn else w
      appendOut w₁ (loadConst index ++ "@5\n D=D+A\n @R13\n M=D\n" ++ popD ++
        "@R13\n A=M\n M=D\n" ++ popComment ++ errorComment)
    else
      appendOut w (loadVregAddress segment index 'D' ++ "@R13\n M=D\n" ++ popD ++
        "@R13\n A=M\n M=D\n" ++ popComment)
  | _ => w

/-- `CodeWriter::do_stack_op_two`. -/
def doStackOpTwo (op : String) : String := popD ++ popA ++ op ++ "\n" ++ pushD

/-- `CodeWriter::do_stack_op_one`. -/
def doStackOpOne (op : String) : String := popD ++ op ++ "\n" ++ pushD

/-- The comparison template with branch labels embedding the stream
position `currentPos` (the `result` of `do_compare_stack_two`). -/
def compareText (jumpOp : String) (currentPos : Nat) : String :=
  doStackOpTwo ("D=D-A\n @IF" ++ Nat.repr currentPos ++ "\n D;" ++ jumpOp ++
    "\n D=0\n @ENDIF" ++ Nat.repr (currentPos + 1) ++ "\n 0;JMP\n (IF" ++
    Nat.repr currentPos ++ ")\n D=-1\n (ENDIF" ++ Nat.repr (currentPos + 1) ++
    ")\n") ++ "// if then\n"

/-- `CodeWriter::do_compare_stack_two`: builds the comparison template whose
branch labels embed the current output-stream write position. -/
def doCompareStackTwo (w : CodeWriter) (jumpOp : String) : String :=
  compareText jumpOp w.out.length

/-- `CodeWriter::write_arithmetic`; `none` models the panic on an
unrecognized operator. -/
def writeArithmetic (w : CodeWriter) (command : String) : Option CodeWriter :=
  if command = "add" then some (appendOut w (doStackOpTwo "D=D+A"))
  else if command = "sub" then some (appendOut w (doStackOpTwo "D=A-D"))
  else if command = "neg" then some (appendOut w (doStackOpOne "D=-D"))
  else if command = "eq" then some (appendOut w (doCompareStackTwo w "JEQ"))
  else if command = "gt" then some (appendOut w (doCompareStackTwo w "JLT"))
  else if command = "lt" then some (appendOut w (doCompareStackTwo w "JGT"))
  else if command = "and" then some (appendOut w (doStackOpTwo "D=D&A"))
  else if command = "or" then some (appendOut w (doStackOpTwo "D=D|A"))
  else if command = "not" then some (appendOut w (doStackOpOne "D=!D"))
  else none

/-- `CodeWriter::write_label`. -/
def writeLabel (w : CodeWriter) (labelName : String) : CodeWriter :=
  let comment := "// label " ++ labelName ++ "\n"
  let p := getLabel w .FunctionLabel (some labelName)
  appendOut p.2 ("(" ++ p.1 ++ ")\n" ++ comment)

/-- `CodeWriter::write_goto`. -/
def writeGoto (w : CodeWriter) (labelName : String) : CodeWriter :=
  let comment := "// goto " ++ labelName ++ "\n"
  let p := getLabel w .FunctionLabel (some labelName)
  appendOut p.2 ("@" ++ p.1 ++ "\n 0;JMP\n" ++ comment)

/-- `CodeWriter::write_if`. -/
def writeIf (w : CodeWriter) (labelName : String) : CodeWriter :=
  let comment := "// if-goto " ++ labelName ++ "\n"
  let p := getLabel w .FunctionLabel (some labelName)
  appendOut p.2 (popD ++ "@" ++ p.1 ++ "\n D;JNE\n" ++ comment)

/-- `CodeWriter::get_temp_var`. -/
def getTempVar (i : Nat) (reg : String) : String :=
  "@R" ++ Nat.repr i ++ "\n" ++ reg ++ "=M\n"

/-- `CodeWriter::store_temp_var`. -/
def storeTempVar (i : Nat) : String := "@R" ++ Nat.repr i ++ "\nM=D\n"

/-- `CodeWriter::write_return`. -/
def writeReturn (w : CodeWriter) : CodeWriter :=
  let comment := "// return\n"
  let result := "@LCL\nD=M\n" ++
    storeTempVar 13 ++
    "@5\nD=D-A\n" ++
    storeTempVar 14 ++
    popD ++
    "@ARG\nA=M\nM=D\n" ++
    "D=A\n@SP\nM=D+1\n" ++
    getTempVar 13 "D" ++
    "A=D-1\nD=M\n@THAT\nM=D\n" ++
    getTempVar 13 "D" ++
    "@2\nA=D-A\nD=M\n@THIS\nM=D\n" ++
    getTempVar 13 "D" ++
    "@3\nA=D-A\nD=M\n@ARG\nM=D\n" ++
    getTempVar 13 "D" ++
    "@4\nA=D-A\nD=M\n@LCL\nM=D\n" ++
    getTempVar 14 "A" ++
    "0;JMP\n" ++
    comment
  appendOut w result

/-- The text emitted by `CodeWriter::write_call` (its `result` value). -/
def callText (retAddress functionName nVarsStr : String) : String :=
  "@" ++ retAddress ++ "\nD=A\n" ++ pushD ++
    pushLabel "LCL" ++
    pushLabel "ARG" ++
    pushLabel "THIS" ++
    pushLabel "THAT" ++
    "@SP\nD=M\n@5\nD=D-A\n" ++
    "@" ++ nVarsStr ++ "\nD=D-A\n" ++
    "@ARG\nM=D\n" ++
    "@SP\nD=M\n@LCL\nM=D\n" ++
    "@" ++ functionName ++ "\n0;JMP\n" ++
    "(" ++ retAddress ++ ")\n" ++
    ("// call " ++ functionName ++ " " ++ nVarsStr ++ "\n")

/-- `CodeWriter::write_call`. -/
def writeCall (w : CodeWriter) (functionName : String) (nVars : Int) : CodeWriter :=
  let p := getLabel w .FunctionRet (some functionName)
  appendOut p.2 (callText p.1 functionName (Int.repr nVars))

/-- String repetition for the local-variable initialization loop. -/
def repeatStr (s : String) : Nat → String
  | 0 => ""
  | n + 1 => s ++ repeatStr s n

/-- `CodeWriter::write_function`; note that it does not update `curFunc`. -/
def writeFunction (w : CodeWriter) (functionName : String) (nVars : Int) : CodeWriter :=
  let comment := "// function " ++ functionName ++ " " ++ Int.repr nVars ++ "\n"
  appendOut w ("(" ++ functionName ++ ")\n" ++ repeatStr (pushConst 0) nVars.toNat ++ comment)

/-- `CodeWriter::write_init`. -/
def writeInit (w : CodeWriter) : CodeWriter :=
  appendOut w "@256\nD=A\n@SP\nM=D\n@Sys.init\n0;JMP\n"

/-- `CodeWriter::write_end`. -/
def writeEnd (w : CodeWriter) : CodeWriter :=
  appendOut w "(VMEND)\n@VMEND\n0;JMP\n"

/-! ### Embedding of the line reader (`Parser` in the source)

The input stream is a list of raw lines plus a read cursor; `read_line`
returning fewer than one byte corresponds to the cursor reaching the end. -/

/-- The reader state, mirroring `Parser` in the source. -/
structure Parser where
  lines : List String
  pos : Nat
  hasLinesRemaining : Bool
  curLine : Option String
  line : Nat
  lineRaw : Nat
deriving DecidableEq

/-- `Parser::new`. -/
def newParser (lines : List String) : Parser := ⟨lines, 0, false, none, 0, 0⟩

/-- `Parser::has_more_lines`. -/
def hasMoreLines (p : Parser) : Bool := p.hasLinesRemaining

/-- One raw line as processed by `advance`: trim, then truncate at the
first `//` (in that order, as in the source). -/
def processLine (s : String) : List Char := dropComment (trimChars s.data)

/-- The reading loop of `Parser::advance` over the remaining lines; the
boolean is `true` for `Ok` and `false` for the end-of-input error. -/
def advanceGo (p : Parser) : List String → Parser × Bool
  | [] => ({ p with hasLinesRemaining := false, curLine := none }, false)
  | l :: rest =>
    let t := processLine l
    if t.isEmpty then
      advanceGo { p with pos := p.pos + 1, lineRaw := p.lineRaw + 1 } rest
    else
      ({ p with
          pos := p.pos + 1
          hasLinesRemaining := true
          curLine := some ⟨t⟩
          line := p.line + 1 }, true)

/-- `Parser::advance`. -/
def advance (p : Parser) : Parser × Bool := advanceGo p (p.lines.drop p.pos)

/-- `Parser::reset`: rewind the stream and clear the counters and the
current line; `hasLinesRemaining` is left untouched (as in the source). -/
def reset (p : Parser) : Parser :=
  { p with pos := 0, line := 0, lineRaw := 0, curLine := none }


/-! ### Claim-support definitions -/

/-- Join lines with a terminating newline after each. -/
def joinLines : List (List Char) → List Char
  | [] => []
  | l :: ls => l ++ '\n' :: joinLines ls

/-- A character that survives line splitting, comment stripping and
trimming unchanged: not a newline, slash or whitespace. -/
def goodCh (c : Char) : Bool := !(c = '\n' || c = '/' || c.isWhitespace)

/-- A string of characters that survive the line-level cleanup. -/
def cleanChars (s : String) : Bool := s.data.all goodCh

/-- RAM contents after a Hack push of `v`: `v` at the old stack top, the
stack pointer (RAM[0]) incremented. -/
def pushRam (r : Int → Int) (v : Int) : Int → Int :=
  Function.update (Function.update r (r 0) v) 0 (r 0 + 1)

/-- The instructions of the `push_d` template. -/
def pushDInstrs : List Instr :=
  [.addr "SP", .cinstr "A" "M" "", .cinstr "M" "D" "", .addr "SP", .cinstr "M" "M+1" ""]

/-- Instructions pushing the value of symbol `s` (the `@s / D=A` prologue
of `write_call`'s return-address push). -/
def pushValInstrs (s : String) : List Instr :=
  .addr s :: .cinstr "D" "A" "" :: pushDInstrs

/-- Instructions pushing the contents of the register named `s` (the
`push_label` template). -/
def pushMemInstrs (s : String) : List Instr :=
  .addr s :: .cinstr "D" "M" "" :: pushDInstrs

/-- Instructions computing the callee argument base: `ARG := SP - 5 - n`
(the middle of the `write_call` template); `nstr` is the numeral for `n`. -/
def setArgInstrs (nstr : String) : List Instr :=
  [.addr "SP", .cinstr "D" "M" "", .addr "5", .cinstr "D" "D-A" "",
   .addr nstr, .cinstr "D" "D-A" "", .addr "ARG", .cinstr "M" "D" ""]

/-- Instructions setting the callee local base: `LCL := SP`. -/
def setLclInstrs : List Instr :=
  [.addr "SP", .cinstr "D" "M" "", .addr "LCL", .cinstr "M" "D" ""]

/-- The straight-line prefix of the parsed `write_call` emission: push the
return-address value, push the four saved bases, recompute ARG and LCL. -/
def callPrefixInstrs (retL nstr : String) : List Instr :=
  pushValInstrs retL ++ pushMemInstrs "LCL" ++ pushMemInstrs "ARG" ++
    pushMemInstrs "THIS" ++ pushMemInstrs "THAT" ++ setArgInstrs nstr ++ setLclInstrs

/-- The full parsed `write_call` emission: the straight-line prefix, the
jump to the callee, and the return-address label right after the jump. -/
def callInstrs (retL f nstr : String) : List Instr :=
  callPrefixInstrs retL nstr ++ [.addr f, .cinstr "" "0" "JMP", .label retL]

/-- The instructions of the `push temp i` template: compute `5 + i` and
push the contents of that cell. -/
def tempPushInstrs (nstr : String) : List Instr :=
  .addr nstr :: .cinstr "D" "A" "" :: .addr "5" :: .cinstr "A" "D+A" "" ::
    .cinstr "D" "M" "" :: pushDInstrs

/-- The parsed instructions of the comparison template at stream position
`p`: pop two operands, subtract, branch on `jmp` to push -1 or fall
through to push 0. -/
def compareInstrs (jmp : String) (p : Nat) : List Instr :=
  [.addr "SP", .cinstr "AM" "M-1" "", .cinstr "D" "M" "",
   .addr "SP", .cinstr "AM" "M-1" "", .cinstr "A" "M" "",
   .cinstr "D" "D-A" "",
   .addr ("IF" ++ Nat.repr p), .cinstr "" "D" jmp,
   .cinstr "D" "0" "",
   .addr ("ENDIF" ++ Nat.repr (p + 1)), .cinstr "" "0" "JMP",
   .label ("IF" ++ Nat.repr p), .cinstr "D" "-1" "",
   .label ("ENDIF" ++ Nat.repr (p + 1)),
   .addr "SP", .cinstr "A" "M" "", .cinstr "M" "D" "",
   .addr "SP", .cinstr "M" "M+1" ""]

/-- One emitter call on a translation unit, used to quantify over the
commands emitted between two points of the same unit. -/
inductive EmitOp where
  | arith (op : String)
  | pushPop (command : CommandType) (segment : String) (index : Int)
  | lbl (labelName : String)
  | gotoCmd (labelName : String)
  | ifGoto (labelName : String)
  | funcCmd (functionName : String) (nVars : Int)
  | callCmd (functionName : String) (nVars : Int)
  | retCmd
  | initCmd
  | endCmd

/-- Apply one emitter call; `none` models the panic of `write_arithmetic`
on an unrecognized operator. -/
def applyEmitOp (w : CodeWriter) : EmitOp → Option CodeWriter
  | .arith op => writeArithmetic w op
  | .pushPop c seg i => some (writePushPop w c seg i)
  | .lbl s => some (writeLabel w s)
  | .gotoCmd s => some (writeGoto w s)
  | .ifGoto s => some (writeIf w s)
  | .funcCmd f n => some (writeFunction w f n)
  | .callCmd f n => some (writeCall w f n)
  | .retCmd => some (writeReturn w)
  | .initCmd => some (writeInit w)
  | .endCmd => some (writeEnd w)

/-- Apply a sequence of emitter calls. -/
def applyEmitOps (w : CodeWriter) : List EmitOp → Option CodeWriter
  | [] => some w
  | op :: rest =>
    match applyEmitOp w op with
    | none => none
    | some w' => applyEmitOps w' rest

/-! ### Supporting lemmas -/

theorem toDigitsCore_append (b : Nat) :
    ∀ (fuel n : Nat) (l : List Char),
      Nat.toDigitsCore b fuel n l = Nat.toDigitsCore b fuel n [] ++ l := by
  intro fuel
  induction fuel with
  | zero => intro n l; simp [Nat.toDigitsCore]
  | succ f ih =>
    intro n l
    simp only [Nat.toDigitsCore]
    by_cases h : n / b = 0
    · simp [h]
    · simp only [if_neg h]
      rw [ih (n / b) [Nat.digitChar (n % b)], ih (n / b) (Nat.digitChar (n % b) :: l),
        List.append_assoc]
      rfl

theorem toDigitsCore_eq_decChars :
    ∀ (fuel n : Nat), n < fuel → Nat.toDigitsCore 10 fuel n [] = decChars n := by
  intro fuel
  induction fuel with
  | zero => intro n h; omega
  | succ f ih =>
    intro n h
    simp only [Nat.toDigitsCore]
    by_cases h10 : n / 10 = 0
    · have hn : n < 10 := by omega
      rw [if_pos h10, decChars, dif_pos hn, Nat.mod_eq_of_lt hn]
    · have hn : ¬ n < 10 := by omega
      have hdivlt : n / 10 < f := by omega
      rw [if_neg h10, toDigitsCore_append, ih (n / 10) hdivlt]
      conv_rhs => rw [decChars]
      rw [dif_neg hn]

theorem toDigits_eq_decChars (n : Nat) : Nat.toDigits 10 n = decChars n :=
  toDigitsCore_eq_decChars (n + 1) n (Nat.lt_succ_self n)

theorem repr_data (n : Nat) : (Nat.repr n).data = decChars n := by
  rw [Nat.repr, toDigits_eq_decChars]; rfl

theorem charVal_digitChar {d : Nat} (h : d < 10) : charVal (Nat.digitChar d) = d := by
  interval_cases d <;> decide

theorem isDigit_digitChar {d : Nat} (h : d < 10) : (Nat.digitChar d).isDigit = true := by
  interval_cases d <;> decide

theorem foldl_digits_append (l : List Char) (c : Char) (a : Nat) :
    (l ++ [c]).foldl (fun a c => 10 * a + charVal c) a =
      10 * l.foldl (fun a c => 10 * a + charVal c) a + charVal c := by
  rw [List.foldl_append]; rfl

theorem strNatVal_decChars (n : Nat) : strNatVal (decChars n) = n := by
  induction n using Nat.strong_induction_on with
  | _ n ih =>
    by_cases h : n < 10
    · rw [decChars, dif_pos h]
      simp [strNatVal, charVal_digitChar h]
    · rw [decChars, dif_neg h]
      have hdiv : n / 10 < n := Nat.div_lt_self (by omega) (by omega)
      have := ih (n / 10) hdiv
      simp only [strNatVal] at this ⊢
      rw [foldl_digits_append, this, charVal_digitChar (Nat.mod_lt n (by omega))]
      omega

theorem decChars_digits (n : Nat) : ∀ c ∈ decChars n, c.isDigit = true := by
  induction n using Nat.strong_induction_on with
  | _ n ih =>
    by_cases h : n < 10
    · rw [decChars, dif_pos h]
      intro c hc
      simp only [List.mem_singleton] at hc
      subst hc; exact isDigit_digitChar h
    · rw [decChars, dif_neg h]
      intro c hc
      rcases List.mem_append.mp hc with hc | hc
      · exact ih (n / 10) (Nat.div_lt_self (by omega) (by omega)) c hc
      · simp only [List.mem_singleton] at hc
        subst hc; exact isDigit_digitChar (Nat.mod_lt n (by omega))

theorem decChars_ne_nil (n : Nat) : decChars n ≠ [] := by
  by_cases h : n < 10
  · rw [decChars, dif_pos h]; simp
  · rw [decChars, dif_neg h]; simp

theorem natRepr_injective : Function.Injective Nat.repr := by
  intro m n h
  have hd : decChars m = decChars n := by
    rw [← repr_data, ← repr_data, h]
  have := strNatVal_decChars m
  rw [hd, strNatVal_decChars] at this
  omega

theorem execList_append (env : String → Int) (l₁ l₂ : List Instr) (m : Mach) :
    execList env (l₁ ++ l₂) m =
      match execList env l₁ m with
      | none => none
      | some m' => execList env l₂ m' := by
  induction l₁ generalizing m with
  | nil => simp [execList]
  | cons i rest ih =>
    simp only [List.cons_append, execList]
    cases execInstr env m i with
    | none => rfl
    | some m' => exact ih m'

theorem splitLines_ne_nil (l : List Char) : splitLines l ≠ [] := by
  cases l with
  | nil => simp [splitLines]
  | cons c rest =>
    simp only [splitLines]
    by_cases hc : c = '\n'
    · simp [hc]
    · simp only [if_neg hc]
      cases splitLines rest <;> simp

theorem splitLines_append_no_nl (l₁ : List Char) (h : ∀ c ∈ l₁, c ≠ '\n') (l₂ : List Char) :
    splitLines (l₁ ++ l₂) = List.modifyHead (l₁ ++ ·) (splitLines l₂) := by
  induction l₁ with
  | nil =>
    cases hs : splitLines l₂ with
    | nil => exact absurd hs (splitLines_ne_nil l₂)
    | cons hd tl =>
      simp only [List.nil_append, List.modifyHead, hs]
  | cons c rest ih =>
    have hc : c ≠ '\n' := h c (List.mem_cons_self _ _)
    have hrest : ∀ x ∈ rest, x ≠ '\n' := fun x hx => h x (List.mem_cons_of_mem _ hx)
    cases hs : splitLines l₂ with
    | nil => exact absurd hs (splitLines_ne_nil l₂)
    | cons hd tl =>
      simp only [List.cons_append, splitLines, if_neg hc, List.append_eq, ih hrest, hs,
        List.modifyHead]

theorem parseChars_cons_line (l₁ l₂ : List Char) (h : ∀ c ∈ l₁, c ≠ '\n') :
    parseChars (l₁ ++ '\n' :: l₂) = (parseLine l₁).toList ++ parseChars l₂ := by
  unfold parseChars
  rw [splitLines_append_no_nl l₁ h]
  have hsp : splitLines ('\n' :: l₂) = [] :: splitLines l₂ := by simp [splitLines]
  rw [hsp]
  simp only [List.modifyHead, List.append_nil]
  cases hp : parseLine l₁ <;> simp [List.filterMap_cons, hp]

theorem parseChars_joinLines (ls : List (List Char))
    (h : ∀ l ∈ ls, ∀ c ∈ l, c ≠ '\n') :
    parseChars (joinLines ls) = ls.filterMap parseLine := by
  induction ls with
  | nil => rfl
  | cons l ls ih =>
    rw [joinLines, parseChars_cons_line l _ (h l (List.mem_cons_self _ _)),
      ih (fun x hx => h x (List.mem_cons_of_mem _ hx))]
    cases hp : parseLine l <;> simp [List.filterMap_cons, hp]

theorem dropComment_eq_self (l : List Char) (h : ∀ c ∈ l, c ≠ '/') :
    dropComment l = l := by
  induction l with
  | nil => rfl
  | cons c rest ih =>
    have hc : c ≠ '/' := h c (List.mem_cons_self _ _)
    simp only [dropComment, ih (fun x hx => h x (List.mem_cons_of_mem _ hx))]
    rw [if_neg (by simp [hc])]

theorem dropWhile_eq_self_of (p : Char → Bool) (l : List Char)
    (h : ∀ c ∈ l, p c = false) : l.dropWhile p = l := by
  cases l with
  | nil => rfl
  | cons c rest => simp [List.dropWhile_cons, h c (List.mem_cons_self _ _)]

theorem trimChars_eq_self (l : List Char) (h : ∀ c ∈ l, c.isWhitespace = false) :
    trimChars l = l := by
  unfold trimChars
  rw [dropWhile_eq_self_of _ _ h,
    dropWhile_eq_self_of _ _ (fun c hc => h c (List.mem_reverse.mp hc)), List.reverse_reverse]

theorem goodCh_ne_nl {c : Char} (h : goodCh c = true) : c ≠ '\n' := by
  intro heq; rw [heq] at h; exact absurd h (by decide)

theorem goodCh_ne_slash {c : Char} (h : goodCh c = true) : c ≠ '/' := by
  intro heq; rw [heq] at h; exact absurd h (by decide)

theorem goodCh_not_ws {c : Char} (h : goodCh c = true) : c.isWhitespace = false := by
  simp only [goodCh, Bool.not_eq_true', Bool.or_eq_false_iff] at h
  exact h.2

theorem parseLine_clean (c : Char) (r : List Char)
    (hc : goodCh c = true) (hr : ∀ x ∈ r, goodCh x = true) :
    parseLine (c :: r) = some (classifyLine c r) := by
  have hall : ∀ x ∈ c :: r, goodCh x = true := by
    intro x hx
    rcases List.mem_cons.mp hx with hx | hx
    · subst hx; exact hc
    · exact hr x hx
  unfold parseLine
  rw [dropComment_eq_self _ (fun x hx => goodCh_ne_slash (hall x hx)),
    trimChars_eq_self _ (fun x hx => goodCh_not_ws (hall x hx))]

theorem goodCh_digitChar {d : Nat} (h : d < 10) : goodCh (Nat.digitChar d) = true := by
  interval_cases d <;> decide

theorem decChars_good (n : Nat) : ∀ c ∈ decChars n, goodCh c = true := by
  induction n using Nat.strong_induction_on with
  | _ n ih =>
    by_cases h : n < 10
    · rw [decChars, dif_pos h]
      intro c hc
      simp only [List.mem_singleton] at hc
      subst hc; exact goodCh_digitChar h
    · rw [decChars, dif_neg h]
      intro c hc
      rcases List.mem_append.mp hc with hc | hc
      · exact ih (n / 10) (Nat.div_lt_self (by omega) (by omega)) c hc
      · simp only [List.mem_singleton] at hc
        subst hc; exact goodCh_digitChar (Nat.mod_lt n (by omega))

theorem repr_good (n : Nat) : ∀ c ∈ (Nat.repr n).data, goodCh c = true := by
  rw [repr_data]; exact decChars_good n

theorem isNumericStr_repr (m : Nat) : isNumericStr (Nat.repr m) = true := by
  unfold isNumericStr
  rw [repr_data]
  have h1 : (decChars m).isEmpty = false := by
    cases hd : decChars m with
    | nil => exact absurd hd (decChars_ne_nil m)
    | cons => rfl
  rw [h1]
  simp only [Bool.not_false, Bool.true_and, List.all_eq_true]
  exact decChars_digits m

theorem resolveSym_repr (env : String → Int) (m : Nat) :
    resolveSym env (Nat.repr m) = Int.ofNat m := by
  unfold resolveSym
  rw [if_pos (isNumericStr_repr m), repr_data, strNatVal_decChars]

theorem isNumericStr_eq_false_of_dollar {s : String} (h : '$' ∈ s.data) :
    isNumericStr s = false := by
  rw [Bool.eq_false_iff]
  intro hb
  unfold isNumericStr at hb
  rw [Bool.and_eq_true, List.all_eq_true] at hb
  exact absurd (hb.2 '$' h) (by decide)

theorem builtinVal_eq_none_of_dollar {s : String} (h : '$' ∈ s.data) :
    builtinVal s = none := by
  unfold builtinVal
  split_ifs with h1 h2 h3 h4 h5 h6 h7 h8 <;>
    first
      | rfl
      | (subst_vars; exact absurd h (by decide))

theorem resolveSym_of_dollar (env : String → Int) {s : String} (h : '$' ∈ s.data) :
    resolveSym env s = env s := by
  unfold resolveSym
  rw [isNumericStr_eq_false_of_dollar h, builtinVal_eq_none_of_dollar h]
  rfl

theorem dollar_mem_retLabel (ns cf : String) (k : Nat) :
    '$' ∈ (ns ++ "." ++ cf ++ "$ret." ++ Nat.repr k).data := by
  rw [String.data_append]
  refine List.mem_append.mpr (Or.inl ?_)
  rw [String.data_append]
  exact List.mem_append.mpr (Or.inr (by decide))

theorem string_append_left_cancel {a b c : String} (h : a ++ b = a ++ c) : b = c := by
  have hd := congrArg String.data h
  rw [String.data_append, String.data_append] at hd
  have hbc := List.append_cancel_left hd
  cases b
  cases c
  exact congrArg String.mk hbc

theorem append_ne_self_of_ne_nil (w t : String) (h : t.data ≠ []) : w ++ t ≠ w := by
  intro he
  have hd := congrArg String.data he
  rw [String.data_append] at hd
  have h2 : w.data ++ t.data = w.data ++ [] := by rw [hd, List.append_nil]
  exact h (List.append_cancel_left h2)

theorem pushRam_0 (r : Int → Int) (v : Int) : pushRam r v 0 = r 0 + 1 := by
  unfold pushRam
  rw [Function.update_same]

theorem pushRam_top (r : Int → Int) (v : Int) (h : r 0 ≠ 0) : pushRam r v (r 0) = v := by
  unfold pushRam
  rw [Function.update_noteq h, Function.update_same]

theorem pushRam_other (r : Int → Int) (v a : Int) (h0 : a ≠ 0) (ht : a ≠ r 0) :
    pushRam r v a = r a := by
  unfold pushRam
  rw [Function.update_noteq h0, Function.update_noteq ht]

theorem exec_pushVal (env : String → Int) (s : String) (m : Mach) (h : m.ram 0 ≠ 0) :
    execList env (pushValInstrs s) m =
      some ⟨0, resolveSym env s, pushRam m.ram (resolveSym env s)⟩ := by
  have hstep : execList env (pushValInstrs s) m =
      some ⟨0, resolveSym env s,
        Function.update (Function.update m.ram (m.ram 0) (resolveSym env s)) 0
          ((Function.update m.ram (m.ram 0) (resolveSym env s)) 0 + 1)⟩ := rfl
  rw [hstep, Function.update_noteq (Ne.symm h)]
  rfl

theorem exec_pushMem (env : String → Int) (s : String) (m : Mach) (h : m.ram 0 ≠ 0) :
    execList env (pushMemInstrs s) m =
      some ⟨0, m.ram (resolveSym env s), pushRam m.ram (m.ram (resolveSym env s))⟩ := by
  have hstep : execList env (pushMemInstrs s) m =
      some ⟨0, m.ram (resolveSym env s),
        Function.update (Function.update m.ram (m.ram 0) (m.ram (resolveSym env s))) 0
          ((Function.update m.ram (m.ram 0) (m.ram (resolveSym env s))) 0 + 1)⟩ := rfl
  rw [hstep, Function.update_noteq (Ne.symm h)]
  rfl

theorem exec_setArg (env : String → Int) (nstr : String) (m : Mach) :
    execList env (setArgInstrs nstr) m =
      some ⟨2, m.ram 0 - 5 - resolveSym env nstr,
        Function.update m.ram 2 (m.ram 0 - 5 - resolveSym env nstr)⟩ := rfl

theorem exec_setLcl (env : String → Int) (m : Mach) :
    execList env setLclInstrs m =
      some ⟨1, m.ram 0, Function.update m.ram 1 (m.ram 0)⟩ := rfl

theorem execList_append_some {env : String → Int} {X Y : List Instr} {m m' : Mach}
    (h : execList env X m = some m') :
    execList env (X ++ Y) m = execList env Y m' := by
  rw [execList_append, h]

theorem exec_callPrefix (env : String → Int) (retL nstr : String) (m : Mach)
    (hsp : (16:Int) ≤ m.ram 0) :
    ∃ mfin : Mach,
      execList env (callPrefixInstrs retL nstr) m = some mfin ∧
      mfin.ram 0 = m.ram 0 + 5 ∧
      mfin.ram 1 = mfin.ram 0 ∧
      mfin.ram 2 = mfin.ram 0 - 5 - resolveSym env nstr ∧
      mfin.ram (m.ram 0) = resolveSym env retL ∧
      mfin.ram (m.ram 0 + 1) = m.ram 1 ∧
      mfin.ram (m.ram 0 + 2) = m.ram 2 ∧
      mfin.ram (m.ram 0 + 3) = m.ram 3 ∧
      mfin.ram (m.ram 0 + 4) = m.ram 4 := by
  have h0 : m.ram 0 ≠ 0 := by omega
  set v1 := resolveSym env retL with hv1
  set r1 := pushRam m.ram v1 with hr1
  have hr1z : r1 0 = m.ram 0 + 1 := pushRam_0 _ _
  set r2 := pushRam r1 (r1 1) with hr2
  have hr2z : r2 0 = m.ram 0 + 2 := by rw [hr2, pushRam_0]; omega
  set r3 := pushRam r2 (r2 2) with hr3
  have hr3z : r3 0 = m.ram 0 + 3 := by rw [hr3, pushRam_0]; omega
  set r4 := pushRam r3 (r3 3) with hr4
  have hr4z : r4 0 = m.ram 0 + 4 := by rw [hr4, pushRam_0]; omega
  set r5 := pushRam r4 (r4 4) with hr5
  have hr5z : r5 0 = m.ram 0 + 5 := by rw [hr5, pushRam_0]; omega
  set nv := resolveSym env nstr with hnv
  set r6 := Function.update r5 2 (r5 0 - 5 - nv) with hr6
  have e1 : execList env (pushValInstrs retL) m = some ⟨0, v1, r1⟩ :=
    exec_pushVal env retL m h0
  have e2 : execList env (pushMemInstrs "LCL") ⟨0, v1, r1⟩ = some ⟨0, r1 1, r2⟩ :=
    exec_pushMem env "LCL" ⟨0, v1, r1⟩ (by show r1 0 ≠ 0; omega)
  have e3 : execList env (pushMemInstrs "ARG") ⟨0, r1 1, r2⟩ = some ⟨0, r2 2, r3⟩ :=
    exec_pushMem env "ARG" ⟨0, r1 1, r2⟩ (by show r2 0 ≠ 0; omega)
  have e4 : execList env (pushMemInstrs "THIS") ⟨0, r2 2, r3⟩ = some ⟨0, r3 3, r4⟩ :=
    exec_pushMem env "THIS" ⟨0, r2 2, r3⟩ (by show r3 0 ≠ 0; omega)
  have e5 : execList env (pushMemInstrs "THAT") ⟨0, r3 3, r4⟩ = some ⟨0, r4 4, r5⟩ :=
    exec_pushMem env "THAT" ⟨0, r3 3, r4⟩ (by show r4 0 ≠ 0; omega)
  have e6 : execList env (setArgInstrs nstr) ⟨0, r4 4, r5⟩ =
      some ⟨2, r5 0 - 5 - nv, r6⟩ := exec_setArg env nstr _
  have e7 : execList env setLclInstrs ⟨2, r5 0 - 5 - nv, r6⟩ =
      some ⟨1, r6 0, Function.update r6 1 (r6 0)⟩ := exec_setLcl env _
  refine ⟨⟨1, r6 0, Function.update r6 1 (r6 0)⟩, ?_, ?_, ?_, ?_, ?_, ?_, ?_, ?_, ?_⟩
  · unfold callPrefixInstrs
    simp only [List.append_assoc]
    rw [execList_append_some e1, execList_append_some e2, execList_append_some e3,
      execList_append_some e4, execList_append_some e5, execList_append_some e6, e7]
  · show Function.update r6 1 (r6 0) 0 = m.ram 0 + 5
    rw [Function.update_noteq (by decide), hr6,
      Function.update_noteq (by decide), hr5z]
  · show Function.update r6 1 (r6 0) 1 = Function.update r6 1 (r6 0) 0
    rw [Function.update_same, Function.update_noteq (by decide)]
  · show Function.update r6 1 (r6 0) 2 = Function.update r6 1 (r6 0) 0 - 5 - nv
    rw [Function.update_noteq (by decide), Function.update_noteq (by decide), hr6,
      Function.update_same]
    rw [Function.update_noteq (by decide)]
  · show Function.update r6 1 (r6 0) (m.ram 0) = v1
    rw [Function.update_noteq (by omega), hr6, Function.update_noteq (by omega)]
    rw [hr5, pushRam_other _ _ _ (by omega) (by rw [hr4z]; omega),
      hr4, pushRam_other _ _ _ (by omega) (by rw [hr3z]; omega),
      hr3, pushRam_other _ _ _ (by omega) (by rw [hr2z]; omega),
      hr2, pushRam_other _ _ _ (by omega) (by rw [hr1z]; omega),
      hr1, pushRam_top _ _ h0]
  · show Function.update r6 1 (r6 0) (m.ram 0 + 1) = m.ram 1
    rw [Function.update_noteq (by omega), hr6, Function.update_noteq (by omega)]
    rw [hr5, pushRam_other _ _ _ (by omega) (by rw [hr4z]; omega),
      hr4, pushRam_other _ _ _ (by omega) (by rw [hr3z]; omega),
      hr3, pushRam_other _ _ _ (by omega) (by rw [hr2z]; omega)]
    rw [show m.ram 0 + 1 = r1 0 by rw [hr1z]]
    rw [hr2, pushRam_top _ _ (by omega)]
    rw [hr1, pushRam_other _ _ _ (by omega) (by omega)]
  · show Function.update r6 1 (r6 0) (m.ram 0 + 2) = m.ram 2
    rw [Function.update_noteq (by omega), hr6, Function.update_noteq (by omega)]
    rw [hr5, pushRam_other _ _ _ (by omega) (by rw [hr4z]; omega),
      hr4, pushRam_other _ _ _ (by omega) (by rw [hr3z]; omega)]
    rw [show m.ram 0 + 2 = r2 0 by rw [hr2z]]
    rw [hr3, pushRam_top _ _ (by omega)]
    rw [hr2, pushRam_other _ _ _ (by omega) (by rw [hr1z]; omega),
      hr1, pushRam_other _ _ _ (by omega) (by omega)]
  · show Function.update r6 1 (r6 0) (m.ram 0 + 3) = m.ram 3
    rw [Function.update_noteq (by omega), hr6, Function.update_noteq (by omega)]
    rw [hr5, pushRam_other _ _ _ (by omega) (by rw [hr4z]; omega)]
    rw [show m.ram 0 + 3 = r3 0 by rw [hr3z]]
    rw [hr4, pushRam_top _ _ (by omega)]
    rw [hr3, pushRam_other _ _ _ (by omega) (by rw [hr2z]; omega),
      hr2, pushRam_other _ _ _ (by omega) (by rw [hr1z]; omega),
      hr1, pushRam_other _ _ _ (by omega) (by omega)]
  · show Function.update r6 1 (r6 0) (m.ram 0 + 4) = m.ram 4
    rw [Function.update_noteq (by omega), hr6, Function.update_noteq (by omega)]
    rw [show m.ram 0 + 4 = r4 0 by rw [hr4z]]
    rw [hr5, pushRam_top _ _ (by omega)]
    rw [hr4, pushRam_other _ _ _ (by omega) (by rw [hr3z]; omega),
      hr3, pushRam_other _ _ _ (by omega) (by rw [hr2z]; omega),
      hr2, pushRam_other _ _ _ (by omega) (by rw [hr1z]; omega),
      hr1, pushRam_other _ _ _ (by omega) (by omega)]

theorem parseLine_at (l : List Char) (h : ∀ c ∈ l, goodCh c = true) :
    parseLine ('@' :: l) = some (.addr ⟨l⟩) := by
  rw [parseLine_clean '@' l (by decide) h]
  rfl

theorem parseLine_lparen (l : List Char) (h : ∀ c ∈ l, goodCh c = true) :
    parseLine ('(' :: (l ++ [')'])) = some (.label ⟨l⟩) := by
  have hgood : ∀ c ∈ l ++ [')'], goodCh c = true := by
    intro c hc
    rcases List.mem_append.mp hc with hc | hc
    · exact h c hc
    · simp only [List.mem_singleton] at hc
      subst hc; decide
  rw [parseLine_clean '(' _ (by decide) hgood]
  unfold classifyLine
  rw [if_pos rfl, List.dropLast_concat]

theorem cleanChars_retLabel (ns cf : String) (k : Nat)
    (h1 : cleanChars ns = true) (h2 : cleanChars cf = true) :
    cleanChars (ns ++ "." ++ cf ++ "$ret." ++ Nat.repr k) = true := by
  simp only [cleanChars, String.data_append, List.all_append, Bool.and_eq_true,
    List.all_eq_true] at h1 h2 ⊢
  refine ⟨⟨⟨⟨h1, by decide⟩, h2⟩, by decide⟩, ?_⟩
  exact repr_good k

theorem goodChars_of_cleanChars {s : String} (h : cleanChars s = true) :
    ∀ c ∈ s.data, goodCh c = true := by
  rw [cleanChars, List.all_eq_true] at h
  exact h

set_option maxRecDepth 8192 in
theorem parse_callText (retL f : String) (nv : Nat)
    (hret : cleanChars retL = true) (hf : cleanChars f = true) :
    parseAsm (callText retL f (Nat.repr nv)) =
      callPrefixInstrs retL (Nat.repr nv) ++
        [.addr f, .cinstr "" "0" "JMP", .label retL] := by
  have hretg : ∀ c ∈ retL.data, goodCh c = true := goodChars_of_cleanChars hret
  have hfg : ∀ c ∈ f.data, goodCh c = true := goodChars_of_cleanChars hf
  have hdata : (callText retL f (Nat.repr nv)).data = joinLines
      [('@' :: retL.data), ("D=A" : String).data,
       ("@SP" : String).data, (" A=M" : String).data, (" M=D" : String).data,
       (" @SP" : String).data, (" M=M+1 // push D" : String).data,
       ("@LCL" : String).data, ("D=M" : String).data,
       (" @SP" : String).data, (" A=M" : String).data, (" M=D" : String).data,
       (" @SP" : String).data, (" M=M+1 // push D" : String).data,
       ("@ARG" : String).data, ("D=M" : String).data,
       (" @SP" : String).data, (" A=M" : String).data, (" M=D" : String).data,
       (" @SP" : String).data, (" M=M+1 // push D" : String).data,
       ("@THIS" : String).data, ("D=M" : String).data,
       (" @SP" : String).data, (" A=M" : String).data, (" M=D" : String).data,
       (" @SP" : String).data, (" M=M+1 // push D" : String).data,
       ("@THAT" : String).data, ("D=M" : String).data,
       (" @SP" : String).data, (" A=M" : String).data, (" M=D" : String).data,
       (" @SP" : String).data, (" M=M+1 // push D" : String).data,
       ("@SP" : String).data, ("D=M" : String).data, ("@5" : String).data,
       ("D=D-A" : String).data,
       ('@' :: (Nat.repr nv).data), ("D=D-A" : String).data,
       ("@ARG" : String).data, ("M=D" : String).data,
       ("@SP" : String).data, ("D=M" : String).data, ("@LCL" : String).data,
       ("M=D" : String).data,
       ('@' :: f.data), ("0;JMP" : String).data,
       ('(' :: (retL.data ++ [')'])),
       (("// call " : String).data ++ f.data ++ ' ' :: (Nat.repr nv).data)] := by
    simp [callText, pushD, pushM, pushLabel, joinLines, String.data_append]
  unfold parseAsm
  rw [hdata, parseChars_joinLines]
  · simp only [List.filterMap_cons,
      parseLine_at retL.data hretg,
      parseLine_at (Nat.repr nv).data (repr_good nv),
      parseLine_at f.data hfg,
      parseLine_lparen retL.data hretg,
      show parseLine (("D=A" : String).data) = some (.cinstr "D" "A" "") from rfl,
      show parseLine (("@SP" : String).data) = some (.addr "SP") from rfl,
      show parseLine ((" A=M" : String).data) = some (.cinstr "A" "M" "") from rfl,
      show parseLine ((" M=D" : String).data) = some (.cinstr "M" "D" "") from rfl,
      show parseLine ((" @SP" : String).data) = some (.addr "SP") from rfl,
      show parseLine ((" M=M+1 // push D" : String).data) =
        some (.cinstr "M" "M+1" "") from rfl,
      show parseLine (("@LCL" : String).data) = some (.addr "LCL") from rfl,
      show parseLine (("D=M" : String).data) = some (.cinstr "D" "M" "") from rfl,
      show parseLine (("@ARG" : String).data) = some (.addr "ARG") from rfl,
      show parseLine (("@THIS" : String).data) = some (.addr "THIS") from rfl,
      show parseLine (("@THAT" : String).data) = some (.addr "THAT") from rfl,
      show parseLine (("@5" : String).data) = some (.addr "5") from rfl,
      show parseLine (("D=D-A" : String).data) = some (.cinstr "D" "D-A" "") from rfl,
      show parseLine (("M=D" : String).data) = some (.cinstr "M" "D" "") from rfl,
      show parseLine (("0;JMP" : String).data) = some (.cinstr "" "0" "JMP") from rfl,
      show parseLine (("// call " : String).data ++ f.data ++
        ' ' :: (Nat.repr nv).data) = none from rfl,
      List.filterMap_nil]
    rfl
  · intro l hl
    simp only [List.mem_cons, List.not_mem_nil, or_false] at hl
    rcases hl with rfl | rfl | rfl | rfl | rfl | rfl | rfl | rfl | rfl | rfl | rfl | rfl |
      rfl | rfl | rfl | rfl | rfl | rfl | rfl | rfl | rfl | rfl | rfl | rfl | rfl | rfl |
      rfl | rfl | rfl | rfl | rfl | rfl | rfl | rfl | rfl | rfl | rfl | rfl | rfl | rfl |
      rfl | rfl | rfl | rfl | rfl | rfl | rfl | rfl | rfl | rfl | rfl <;>
      first
        | decide
        | (intro c hc
           first
             | (rcases List.mem_cons.mp hc with rfl | hc2
                · decide
                · first
                    | exact goodCh_ne_nl (hretg c hc2)
                    | exact goodCh_ne_nl (hfg c hc2)
                    | exact goodCh_ne_nl (repr_good nv c hc2)
                    | (rcases List.mem_append.mp hc2 with h3 | h3
                       · exact goodCh_ne_nl (hretg c h3)
                       · simp only [List.mem_singleton] at h3
                         subst h3; decide))
             | (rcases List.mem_append.mp hc with h3 | h3
                · rcases List.mem_append.mp h3 with h4 | h4
                  · fin_cases h4 <;> decide
                  · exact goodCh_ne_nl (hfg c h4)
                · rcases List.mem_cons.mp h3 with rfl | h4
                  · decide
                  · exact goodCh_ne_nl (repr_good nv c h4)))

/-! ### Claim theorems -/

/-- C2: for every emission of `call f n`, the generated assembly pushes the
fresh return-address label as a value, then pushes the saved local,
argument, this and that segment bases in that fixed order, sets the new
argument base to stack pointer minus 5 minus n, sets the new local base to
the current stack pointer, jumps to the callee's entry label, and places
the return-address label immediately after the jump. -/
theorem call_convention_correct (w : CodeWriter) (f : String) (nv : Nat)
    (hf : cleanChars f = true) (hns : cleanChars w.nspace = true)
    (hcf : cleanChars w.curFunc = true)
    (env : String → Int) (m : Mach) (hsp : (16 : Int) ≤ m.ram 0) :
    (writeCall w f (Int.ofNat nv)).out =
      w.out ++ callText (getLabel w .FunctionRet (some f)).1 f (Nat.repr nv) ∧
    parseAsm (callText (getLabel w .FunctionRet (some f)).1 f (Nat.repr nv)) =
      callPrefixInstrs (getLabel w .FunctionRet (some f)).1 (Nat.repr nv) ++
        [.addr f, .cinstr "" "0" "JMP",
         .label (getLabel w .FunctionRet (some f)).1] ∧
    ∃ mfin : Mach,
      execList env
          (callPrefixInstrs (getLabel w .FunctionRet (some f)).1 (Nat.repr nv)) m =
        some mfin ∧
      mfin.ram 0 = m.ram 0 + 5 ∧
      mfin.ram (m.ram 0) = env (getLabel w .FunctionRet (some f)).1 ∧
      mfin.ram (m.ram 0 + 1) = m.ram 1 ∧
      mfin.ram (m.ram 0 + 2) = m.ram 2 ∧
      mfin.ram (m.ram 0 + 3) = m.ram 3 ∧
      mfin.ram (m.ram 0 + 4) = m.ram 4 ∧
      mfin.ram 2 = mfin.ram 0 - 5 - Int.ofNat nv ∧
      mfin.ram 1 = mfin.ram 0 := by
  refine ⟨rfl, ?_, ?_⟩
  · exact parse_callText _ f nv (cleanChars_retLabel _ _ _ hns hcf) hf
  · obtain ⟨mfin, he, hz, h1, h2, hv, hs1, hs2, hs3, hs4⟩ :=
      exec_callPrefix env (getLabel w .FunctionRet (some f)).1 (Nat.repr nv) m hsp
    refine ⟨mfin, he, hz, ?_, hs1, hs2, hs3, hs4, ?_, h1⟩
    · rw [hv]
      exact resolveSym_of_dollar env (dollar_mem_retLabel w.nspace w.curFunc w.callCount)
    · rw [h2, resolveSym_repr]

/-- Witness for C2 at a concrete call site. -/
theorem call_convention_correct_witness :
    cleanChars "Foo" = true ∧ cleanChars "Main" = true ∧ cleanChars "" = true ∧
    (16 : Int) ≤ (Mach.mk 0 0 (fun a => if a = 0 then 256 else 0)).ram 0 ∧
    ((writeCall (setNamespace newCodeWriter "Main") "Foo" (Int.ofNat 2)).out =
      (setNamespace newCodeWriter "Main").out ++
        callText (getLabel (setNamespace newCodeWriter "Main") .FunctionRet
          (some "Foo")).1 "Foo" (Nat.repr 2) ∧
    parseAsm (callText (getLabel (setNamespace newCodeWriter "Main") .FunctionRet
        (some "Foo")).1 "Foo" (Nat.repr 2)) =
      callPrefixInstrs (getLabel (setNamespace newCodeWriter "Main") .FunctionRet
          (some "Foo")).1 (Nat.repr 2) ++
        [.addr "Foo", .cinstr "" "0" "JMP",
         .label (getLabel (setNamespace newCodeWriter "Main") .FunctionRet
           (some "Foo")).1] ∧
    ∃ mfin : Mach,
      execList (fun _ => 77)
          (callPrefixInstrs (getLabel (setNamespace newCodeWriter "Main") .FunctionRet
            (some "Foo")).1 (Nat.repr 2))
          (Mach.mk 0 0 (fun a => if a = 0 then 256 else 0)) =
        some mfin ∧
      mfin.ram 0 = (Mach.mk 0 0 (fun a => if a = 0 then 256 else 0)).ram 0 + 5 ∧
      mfin.ram ((Mach.mk 0 0 (fun a => if a = 0 then 256 else 0)).ram 0) =
        (fun _ => (77:Int)) (getLabel (setNamespace newCodeWriter "Main") .FunctionRet
          (some "Foo")).1 ∧
      mfin.ram ((Mach.mk 0 0 (fun a => if a = 0 then 256 else 0)).ram 0 + 1) =
        (Mach.mk 0 0 (fun a => if a = 0 then 256 else 0)).ram 1 ∧
      mfin.ram ((Mach.mk 0 0 (fun a => if a = 0 then 256 else 0)).ram 0 + 2) =
        (Mach.mk 0 0 (fun a => if a = 0 then 256 else 0)).ram 2 ∧
      mfin.ram ((Mach.mk 0 0 (fun a => if a = 0 then 256 else 0)).ram 0 + 3) =
        (Mach.mk 0 0 (fun a => if a = 0 then 256 else 0)).ram 3 ∧
      mfin.ram ((Mach.mk 0 0 (fun a => if a = 0 then 256 else 0)).ram 0 + 4) =
        (Mach.mk 0 0 (fun a => if a = 0 then 256 else 0)).ram 4 ∧
      mfin.ram 2 = mfin.ram 0 - 5 - Int.ofNat 2 ∧
      mfin.ram 1 = mfin.ram 0) :=
  ⟨by decide, by decide, by decide, by decide,
    call_convention_correct (setNamespace newCodeWriter "Main") "Foo" 2
      (by decide) (by decide) (by decide) (fun _ => 77)
      (Mach.mk 0 0 (fun a => if a = 0 then 256 else 0)) (by decide)⟩

/-- C1: the claim asserts that user labels are scoped to the current
function because each Function command updates the current-function name;
in the code `write_function` never updates `curFunc`, so the same user
label emitted after two different Function commands produces the same
generated label (here `ns.$loop` twice). -/
theorem function_label_collision :
    (∀ (w : CodeWriter) (f : String) (n : Int),
      (writeFunction w f n).curFunc = w.curFunc) ∧
    (getLabel (writeFunction (setNamespace newCodeWriter "ns") "f" 0)
      .FunctionLabel (some "loop")).1 = "ns.$loop" ∧
    (getLabel (writeFunction (writeLabel
        (writeFunction (setNamespace newCodeWriter "ns") "f" 0) "loop") "g" 0)
      .FunctionLabel (some "loop")).1 = "ns.$loop" :=
  ⟨fun _ _ _ => rfl, by decide, by decide⟩

/-- C5 counterexample: `pop constant 5` is not a malformed-command abort;
the emitter writes generated code to the output stream. -/
theorem pop_constant_counterexample :
    (writePushPop newCodeWriter .Pop "constant" 5).out ≠ newCodeWriter.out ∧
    (writePushPop newCodeWriter .Pop "constant" 5).out =
      "@SP\n AM=M-1\n D=M // pop D\n@5\n M=D\n// pop constant 5\n\n" :=
  ⟨by decide, by decide⟩

/-- C5 amended: for every Pop on segment `constant`, the emitter does not
abort; it emits code popping the stack top directly into the RAM cell
named by the index (plus the trace comment), and writes no diagnostic. -/
theorem pop_constant_emits (w : CodeWriter) (idx : Int) :
    (writePushPop w .Pop "constant" idx).out =
      w.out ++ (popD ++ "@" ++ Int.repr idx ++ "\n M=D\n" ++
        ("// pop constant " ++ Int.repr idx ++ "\n\n")) ∧
    (writePushPop w .Pop "constant" idx).out ≠ w.out ∧
    (writePushPop w .Pop "constant" idx).errlog = w.errlog := by
  refine ⟨rfl, ?_, rfl⟩
  show w.out ++ (popD ++ "@" ++ Int.repr idx ++ "\n M=D\n" ++
    ("// pop constant " ++ Int.repr idx ++ "\n\n")) ≠ w.out
  apply append_ne_self_of_ne_nil
  simp [String.data_append, popD, decrementSp]

theorem int_repr_good (i : Int) : ∀ c ∈ (Int.repr i).data, goodCh c = true := by
  cases i with
  | ofNat m => exact repr_good m
  | negSucc m =>
    intro c hc
    rw [show Int.repr (.negSucc m) = "-" ++ Nat.repr (m + 1) from rfl,
      String.data_append] at hc
    rcases List.mem_append.mp hc with hc | hc
    · have : c = '-' := by simpa using hc
      subst this; decide
    · exact repr_good (m + 1) c hc

theorem parse_ptrPushText (i : Int) :
    parseAsm ("@THAT\n" ++ "D=M\n " ++ pushD ++
      ("// push pointer " ++ Int.repr i ++ "\n\n")) = pushMemInstrs "THAT" := by
  have hdata : ("@THAT\n" ++ "D=M\n " ++ pushD ++
      ("// push pointer " ++ Int.repr i ++ "\n\n")).data = joinLines
      [("@THAT" : String).data, ("D=M" : String).data,
       (" @SP" : String).data, (" A=M" : String).data, (" M=D" : String).data,
       (" @SP" : String).data, (" M=M+1 // push D" : String).data,
       (("// push pointer " : String).data ++ (Int.repr i).data), []] := by
    simp [pushD, String.data_append, joinLines]
  unfold parseAsm
  rw [hdata, parseChars_joinLines]
  · simp only [List.filterMap_cons,
      show parseLine (("@THAT" : String).data) = some (.addr "THAT") from rfl,
      show parseLine (("D=M" : String).data) = some (.cinstr "D" "M" "") from rfl,
      show parseLine ((" @SP" : String).data) = some (.addr "SP") from rfl,
      show parseLine ((" A=M" : String).data) = some (.cinstr "A" "M" "") from rfl,
      show parseLine ((" M=D" : String).data) = some (.cinstr "M" "D" "") from rfl,
      show parseLine ((" M=M+1 // push D" : String).data) =
        some (.cinstr "M" "M+1" "") from rfl,
      show parseLine (("// push pointer " : String).data ++ (Int.repr i).data) =
        none from rfl,
      show parseLine ([] : List Char) = none from rfl,
      List.filterMap_nil]
    rfl
  · intro l hl
    simp only [List.mem_cons, List.not_mem_nil, or_false] at hl
    rcases hl with rfl | rfl | rfl | rfl | rfl | rfl | rfl | rfl | rfl <;>
      first
        | decide
        | (intro c hc
           rcases List.mem_append.mp hc with h3 | h3
           · fin_cases h3 <;> decide
           · exact goodCh_ne_nl (int_repr_good i c h3))

/-- C10: for every Push or Pop on segment `pointer`, the emitter maps
index 0 to the this-base register and every other index (not only 1) to
the that-base register, with no range check, error, or diagnostic; the
emitted push reads the that-base register and pushes its contents. -/
theorem pointer_segment_mapping (w : CodeWriter) (i : Int) (hi : i ≠ 0)
    (env : String → Int) (m : Mach) (h0 : m.ram 0 ≠ 0) :
    loadPointerSegment 0 = "@THIS\n" ∧
    loadPointerSegment i = "@THAT\n" ∧
    (writePushPop w .Push "pointer" i).out =
      w.out ++ ("@THAT\n" ++ "D=M\n " ++ pushD ++
        ("// push pointer " ++ Int.repr i ++ "\n\n")) ∧
    (writePushPop w .Pop "pointer" i).out =
      w.out ++ (popD ++ "@THAT\n" ++ "M=D\n" ++
        ("// pop pointer " ++ Int.repr i ++ "\n\n")) ∧
    (writePushPop w .Push "pointer" i).errlog = w.errlog ∧
    (writePushPop w .Pop "pointer" i).errlog = w.errlog ∧
    parseAsm ("@THAT\n" ++ "D=M\n " ++ pushD ++
      ("// push pointer " ++ Int.repr i ++ "\n\n")) = pushMemInstrs "THAT" ∧
    execList env (pushMemInstrs "THAT") m =
      some ⟨0, m.ram 4, pushRam m.ram (m.ram 4)⟩ ∧
    pushRam m.ram (m.ram 4) (m.ram 0) = m.ram 4 ∧
    pushRam m.ram (m.ram 4) 0 = m.ram 0 + 1 := by
  have hlp : loadPointerSegment i = "@THAT\n" := by
    show ("@" ++ (if i = 0 then "THIS" else "THAT") ++ "\n") = "@THAT\n"
    rw [if_neg hi]
    rfl
  refine ⟨rfl, hlp, ?_, ?_, rfl, rfl, parse_ptrPushText i,
    exec_pushMem env "THAT" m h0, pushRam_top _ _ h0, pushRam_0 _ _⟩
  · show w.out ++ (loadPointerSegment i ++ "D=M\n " ++ pushD ++
      ("// push pointer " ++ Int.repr i ++ "\n\n")) =
      w.out ++ ("@THAT\n" ++ "D=M\n " ++ pushD ++
        ("// push pointer " ++ Int.repr i ++ "\n\n"))
    rw [hlp]
  · show w.out ++ (popD ++ loadPointerSegment i ++ "M=D\n" ++
      ("// pop pointer " ++ Int.repr i ++ "\n\n")) =
      w.out ++ (popD ++ "@THAT\n" ++ "M=D\n" ++
        ("// pop pointer " ++ Int.repr i ++ "\n\n"))
    rw [hlp]

/-- Witness for C10 at pointer index 5 (outside {0, 1}). -/
theorem pointer_segment_mapping_witness :
    (5 : Int) ≠ 0 ∧
    (Mach.mk 0 0 (fun a => if a = 0 then 256 else 0)).ram 0 ≠ 0 ∧
    (loadPointerSegment 0 = "@THIS\n" ∧
    loadPointerSegment 5 = "@THAT\n" ∧
    (writePushPop newCodeWriter .Push "pointer" 5).out =
      newCodeWriter.out ++ ("@THAT\n" ++ "D=M\n " ++ pushD ++
        ("// push pointer " ++ Int.repr 5 ++ "\n\n")) ∧
    (writePushPop newCodeWriter .Pop "pointer" 5).out =
      newCodeWriter.out ++ (popD ++ "@THAT\n" ++ "M=D\n" ++
        ("// pop pointer " ++ Int.repr 5 ++ "\n\n")) ∧
    (writePushPop newCodeWriter .Push "pointer" 5).errlog = newCodeWriter.errlog ∧
    (writePushPop newCodeWriter .Pop "pointer" 5).errlog = newCodeWriter.errlog ∧
    parseAsm ("@THAT\n" ++ "D=M\n " ++ pushD ++
      ("// push pointer " ++ Int.repr 5 ++ "\n\n")) = pushMemInstrs "THAT" ∧
    execList (fun _ => 0) (pushMemInstrs "THAT")
        (Mach.mk 0 0 (fun a => if a = 0 then 256 else 0)) =
      some ⟨0, (Mach.mk 0 0 (fun a => if a = 0 then 256 else 0)).ram 4,
        pushRam (Mach.mk 0 0 (fun a => if a = 0 then 256 else 0)).ram
          ((Mach.mk 0 0 (fun a => if a = 0 then 256 else 0)).ram 4)⟩ ∧
    pushRam (Mach.mk 0 0 (fun a => if a = 0 then 256 else 0)).ram
        ((Mach.mk 0 0 (fun a => if a = 0 then 256 else 0)).ram 4)
        ((Mach.mk 0 0 (fun a => if a = 0 then 256 else 0)).ram 0) =
      (Mach.mk 0 0 (fun a => if a = 0 then 256 else 0)).ram 4 ∧
    pushRam (Mach.mk 0 0 (fun a => if a = 0 then 256 else 0)).ram
        ((Mach.mk 0 0 (fun a => if a = 0 then 256 else 0)).ram 4) 0 =
      (Mach.mk 0 0 (fun a => if a = 0 then 256 else 0)).ram 0 + 1) :=
  ⟨by decide, by decide,
    pointer_segment_mapping newCodeWriter 5 (by decide) (fun _ => 0)
      (Mach.mk 0 0 (fun a => if a = 0 then 256 else 0)) (by decide)⟩

/-- C6: the parser's advance() does skip empty lines (incrementing only the
raw counter for them), but on a non-empty line it increments only the
logical counter and leaves the raw counter unchanged, contradicting the
claim that both counters are incremented: after two skipped lines and the
stored line "add", `lineRaw` is 2 rather than 3, and on a lone "add" it
stays 0. -/
theorem advance_counter_divergence :
    (advance (newParser ["// c", "", "add"])).2 = true ∧
    (advance (newParser ["// c", "", "add"])).1.curLine = some "add" ∧
    (advance (newParser ["// c", "", "add"])).1.line = 1 ∧
    (advance (newParser ["// c", "", "add"])).1.lineRaw = 2 ∧
    (advance (newParser ["add"])).1.line = 1 ∧
    (advance (newParser ["add"])).1.lineRaw = 0 :=
  ⟨by decide, by decide, by decide, by decide, by decide, by decide⟩

/-- C9: reset() clears the current line and both counters, but leaves
`hasLinesRemaining` untouched, so after a successful advance followed by
reset, `has_more_lines()` still reports a loaded line even though the
current line has been cleared. -/
theorem reset_keeps_has_more :
    (∀ p : Parser, (reset p).pos = 0 ∧ (reset p).line = 0 ∧
      (reset p).lineRaw = 0 ∧ (reset p).curLine = none ∧
      (reset p).hasLinesRemaining = p.hasLinesRemaining) ∧
    (reset (advance (newParser ["add"])).1).curLine = none ∧
    (reset (advance (newParser ["add"])).1).line = 0 ∧
    (reset (advance (newParser ["add"])).1).lineRaw = 0 ∧
    hasMoreLines (reset (advance (newParser ["add"])).1) = true :=
  ⟨fun _ => ⟨rfl, rfl, rfl, rfl, rfl⟩, by decide, by decide, by decide, by decide⟩

theorem writePushPop_ctx (w : CodeWriter) (c : CommandType) (seg : String) (i : Int) :
    (writePushPop w c seg i).nspace = w.nspace ∧
    (writePushPop w c seg i).curFunc = w.curFunc ∧
    (writePushPop w c seg i).callCount = w.callCount := by
  cases c <;>
    first
      | exact ⟨rfl, rfl, rfl⟩
      | (simp only [writePushPop]
         split_ifs <;> exact ⟨rfl, rfl, rfl⟩)

theorem applyEmitOp_ctx (w : CodeWriter) (op : EmitOp) (w' : CodeWriter)
    (h : applyEmitOp w op = some w') :
    w'.nspace = w.nspace ∧ w'.curFunc = w.curFunc ∧ w.callCount ≤ w'.callCount := by
  cases op with
  | arith s =>
    simp only [applyEmitOp] at h
    unfold writeArithmetic at h
    split_ifs at h <;> (cases h; exact ⟨rfl, rfl, le_refl _⟩)
  | pushPop c seg i =>
    simp only [applyEmitOp] at h
    injection h with h
    subst h
    obtain ⟨h1, h2, h3⟩ := writePushPop_ctx w c seg i
    exact ⟨h1, h2, le_of_eq h3.symm⟩
  | lbl s => injection h with h; subst h; exact ⟨rfl, rfl, le_refl _⟩
  | gotoCmd s => injection h with h; subst h; exact ⟨rfl, rfl, le_refl _⟩
  | ifGoto s => injection h with h; subst h; exact ⟨rfl, rfl, le_refl _⟩
  | funcCmd f n => injection h with h; subst h; exact ⟨rfl, rfl, le_refl _⟩
  | callCmd f n =>
    injection h with h
    subst h
    exact ⟨rfl, rfl, Nat.le_succ _⟩
  | retCmd => injection h with h; subst h; exact ⟨rfl, rfl, le_refl _⟩
  | initCmd => injection h with h; subst h; exact ⟨rfl, rfl, le_refl _⟩
  | endCmd => injection h with h; subst h; exact ⟨rfl, rfl, le_refl _⟩

theorem applyEmitOps_ctx (ops : List EmitOp) : ∀ (w w' : CodeWriter),
    applyEmitOps w ops = some w' →
    w'.nspace = w.nspace ∧ w'.curFunc = w.curFunc ∧ w.callCount ≤ w'.callCount := by
  induction ops with
  | nil =>
    intro w w' h
    injection h with h
    subst h
    exact ⟨rfl, rfl, le_refl _⟩
  | cons op rest ih =>
    intro w w' h
    unfold applyEmitOps at h
    cases hop : applyEmitOp w op with
    | none => rw [hop] at h; cases h
    | some w₁ =>
      rw [hop] at h
      obtain ⟨h1, h2, h3⟩ := ih w₁ w' h
      obtain ⟨g1, g2, g3⟩ := applyEmitOp_ctx w op w₁ hop
      exact ⟨h1.trans g1, h2.trans g2, le_trans g3 h3⟩

/-- C4: for any two Call emissions in the same translation unit — the
second reached from the first through any sequence of further emitter
calls — the generated return-address labels are distinct: the call-site
counter is bumped by every return-label generation and never reset, and
the counter value is embedded injectively in the label text. -/
theorem ret_labels_distinct (w : CodeWriter) (f₁ f₂ : String) (n₁ : Int)
    (ops : List EmitOp) (w₂ : CodeWriter)
    (h : applyEmitOps (writeCall w f₁ n₁) ops = some w₂) :
    (getLabel w .FunctionRet (some f₁)).1 ≠ (getLabel w₂ .FunctionRet (some f₂)).1 := by
  obtain ⟨hns, hcf, hcount⟩ := applyEmitOps_ctx ops (writeCall w f₁ n₁) w₂ h
  have hc : w.callCount + 1 ≤ w₂.callCount := by
    have hwc : (writeCall w f₁ n₁).callCount = w.callCount + 1 := rfl
    omega
  intro heq
  have hns' : w₂.nspace = w.nspace := hns.trans rfl
  have hcf' : w₂.curFunc = w.curFunc := hcf.trans rfl
  rw [show (getLabel w .FunctionRet (some f₁)).1 =
      w.nspace ++ "." ++ w.curFunc ++ "$ret." ++ Nat.repr w.callCount from rfl,
    show (getLabel w₂ .FunctionRet (some f₂)).1 =
      w₂.nspace ++ "." ++ w₂.curFunc ++ "$ret." ++ Nat.repr w₂.callCount from rfl,
    hns', hcf'] at heq
  have hrepr := string_append_left_cancel heq
  have := natRepr_injective hrepr
  omega

/-- Witness for C4: two consecutive `call f 0` emissions from a fresh
emitter generate different return-address labels. -/
theorem ret_labels_distinct_witness :
    applyEmitOps (writeCall newCodeWriter "f" 0) [] =
      some (writeCall newCodeWriter "f" 0) ∧
    (getLabel newCodeWriter .FunctionRet (some "f")).1 ≠
      (getLabel (writeCall newCodeWriter "f" 0) .FunctionRet (some "f")).1 :=
  ⟨rfl, ret_labels_distinct newCodeWriter "f" "f" 0 []
    (writeCall newCodeWriter "f" 0) rfl⟩

theorem exec_tempPush (env : String → Int) (nstr : String) (m : Mach)
    (h : m.ram 0 ≠ 0) :
    execList env (tempPushInstrs nstr) m =
      some ⟨0, m.ram (resolveSym env nstr + 5),
        pushRam m.ram (m.ram (resolveSym env nstr + 5))⟩ := by
  have hstep : execList env (tempPushInstrs nstr) m =
      some ⟨0, m.ram (resolveSym env nstr + 5),
        Function.update
          (Function.update m.ram (m.ram 0) (m.ram (resolveSym env nstr + 5))) 0
          ((Function.update m.ram (m.ram 0) (m.ram (resolveSym env nstr + 5))) 0 + 1)⟩ :=
    rfl
  rw [hstep, Function.update_noteq (Ne.symm h)]
  rfl

theorem parse_tempPushText (nv : Nat) :
    parseAsm (loadConst (Int.ofNat nv) ++ "@5\n A=D+A\n D=M\n" ++ pushD ++
      ("// push temp " ++ Int.repr (Int.ofNat nv) ++ "\n\n") ++ tempWarn) =
      tempPushInstrs (Nat.repr nv) := by
  have hdata : (loadConst (Int.ofNat nv) ++ "@5\n A=D+A\n D=M\n" ++ pushD ++
      ("// push temp " ++ Int.repr (Int.ofNat nv) ++ "\n\n") ++ tempWarn).data =
      joinLines
      [('@' :: (Nat.repr nv).data), (" D=A" : String).data,
       ("@5" : String).data, (" A=D+A" : String).data, (" D=M" : String).data,
       ("@SP" : String).data, (" A=M" : String).data, (" M=D" : String).data,
       (" @SP" : String).data, (" M=M+1 // push D" : String).data,
       (("// push temp " : String).data ++ (Nat.repr nv).data), [],
       (("// Warning: access to segment 'temp' above index 7 will cause overflow related errors" : String).data)] := by
    simp [loadConst, pushD, tempWarn, joinLines, String.data_append]
    rfl
  unfold parseAsm
  rw [hdata, parseChars_joinLines]
  · simp only [List.filterMap_cons,
      parseLine_at (Nat.repr nv).data (repr_good nv),
      show parseLine ((" D=A" : String).data) = some (.cinstr "D" "A" "") from rfl,
      show parseLine (("@5" : String).data) = some (.addr "5") from rfl,
      show parseLine ((" A=D+A" : String).data) = some (.cinstr "A" "D+A" "") from rfl,
      show parseLine ((" D=M" : String).data) = some (.cinstr "D" "M" "") from rfl,
      show parseLine (("@SP" : String).data) = some (.addr "SP") from rfl,
      show parseLine ((" A=M" : String).data) = some (.cinstr "A" "M" "") from rfl,
      show parseLine ((" M=D" : String).data) = some (.cinstr "M" "D" "") from rfl,
      show parseLine ((" @SP" : String).data) = some (.addr "SP") from rfl,
      show parseLine ((" M=M+1 // push D" : String).data) =
        some (.cinstr "M" "M+1" "") from rfl,
      show parseLine (("// push temp " : String).data ++ (Nat.repr nv).data) =
        none from rfl,
      show parseLine ([] : List Char) = none from rfl,
      show parseLine (("// Warning: access to segment 'temp' above index 7 will cause overflow related errors" : String).data) = none from rfl,
      List.filterMap_nil]
    rfl
  · intro l hl
    simp only [List.mem_cons, List.not_mem_nil, or_false] at hl
    rcases hl with rfl | rfl | rfl | rfl | rfl | rfl | rfl | rfl | rfl | rfl | rfl |
      rfl | rfl <;>
      first
        | decide
        | (intro c hc
           first
             | (rcases List.mem_cons.mp hc with rfl | hc2
                · decide
                · exact goodCh_ne_nl (repr_good nv c hc2))
             | (rcases List.mem_append.mp hc with h3 | h3
                · fin_cases h3 <;> decide
                · exact goodCh_ne_nl (repr_good nv c h3)))

/-- C7: for every Push or Pop on segment `temp` with index above 7, the
emitter still succeeds and writes the generated code (and the warning
comment) to the output stream, and emits the diagnostic to standard error;
indices up to 7 emit no diagnostic; the emitted push code still executes,
pushing the contents of cell 5 + index. -/
theorem temp_over_range_warns (w : CodeWriter) (nv : Nat) (hv : 7 < nv)
    (env : String → Int) (m : Mach) (h0 : m.ram 0 ≠ 0) :
    (writePushPop w .Push "temp" (Int.ofNat nv)).out =
      w.out ++ (loadConst (Int.ofNat nv) ++ "@5\n A=D+A\n D=M\n" ++ pushD ++
        ("// push temp " ++ Int.repr (Int.ofNat nv) ++ "\n\n") ++ tempWarn) ∧
    (writePushPop w .Push "temp" (Int.ofNat nv)).errlog = w.errlog ++ tempWarn ∧
    (writePushPop w .Pop "temp" (Int.ofNat nv)).errlog = w.errlog ++ tempWarn ∧
    (∀ j : Int, j ≤ 7 → (writePushPop w .Push "temp" j).errlog = w.errlog) ∧
    parseAsm (loadConst (Int.ofNat nv) ++ "@5\n A=D+A\n D=M\n" ++ pushD ++
      ("// push temp " ++ Int.repr (Int.ofNat nv) ++ "\n\n") ++ tempWarn) =
      tempPushInstrs (Nat.repr nv) ∧
    execList env (tempPushInstrs (Nat.repr nv)) m =
      some ⟨0, m.ram (Int.ofNat nv + 5),
        pushRam m.ram (m.ram (Int.ofNat nv + 5))⟩ := by
  have hgt : (7 : Int) < Int.ofNat nv := by
    rw [Int.ofNat_eq_natCast]
    exact_mod_cast hv
  refine ⟨?_, ?_, ?_, ?_, parse_tempPushText nv, ?_⟩
  · show (if (7:Int) < Int.ofNat nv then appendErr w tempWarn else w).out ++
      (loadConst (Int.ofNat nv) ++ "@5\n A=D+A\n D=M\n" ++ pushD ++
        ("// push " ++ "temp" ++ " " ++ Int.repr (Int.ofNat nv) ++ "\n\n") ++
        (if (7:Int) < Int.ofNat nv then tempWarn else "")) = _
    rw [if_pos hgt, if_pos hgt]
    rfl
  · show (if (7:Int) < Int.ofNat nv then appendErr w tempWarn else w).errlog =
      w.errlog ++ tempWarn
    rw [if_pos hgt]
    rfl
  · show (if (7:Int) < Int.ofNat nv then appendErr w tempWarn else w).errlog =
      w.errlog ++ tempWarn
    rw [if_pos hgt]
    rfl
  · intro j hj
    show (if (7:Int) < j then appendErr w tempWarn else w).errlog = w.errlog
    rw [if_neg (by omega)]
  · have h := exec_tempPush env (Nat.repr nv) m h0
    rw [resolveSym_repr] at h
    exact h

/-- Witness for C7 at temp index 9. -/
theorem temp_over_range_warns_witness :
    7 < 9 ∧
    (Mach.mk 0 0 (fun a => if a = 0 then 256 else 0)).ram 0 ≠ 0 ∧
    ((writePushPop newCodeWriter .Push "temp" (Int.ofNat 9)).out =
      newCodeWriter.out ++ (loadConst (Int.ofNat 9) ++ "@5\n A=D+A\n D=M\n" ++ pushD ++
        ("// push temp " ++ Int.repr (Int.ofNat 9) ++ "\n\n") ++ tempWarn) ∧
    (writePushPop newCodeWriter .Push "temp" (Int.ofNat 9)).errlog =
      newCodeWriter.errlog ++ tempWarn ∧
    (writePushPop newCodeWriter .Pop "temp" (Int.ofNat 9)).errlog =
      newCodeWriter.errlog ++ tempWarn ∧
    (∀ j : Int, j ≤ 7 →
      (writePushPop newCodeWriter .Push "temp" j).errlog = newCodeWriter.errlog) ∧
    parseAsm (loadConst (Int.ofNat 9) ++ "@5\n A=D+A\n D=M\n" ++ pushD ++
      ("// push temp " ++ Int.repr (Int.ofNat 9) ++ "\n\n") ++ tempWarn) =
      tempPushInstrs (Nat.repr 9) ∧
    execList (fun _ => 0) (tempPushInstrs (Nat.repr 9))
        (Mach.mk 0 0 (fun a => if a = 0 then 256 else 0)) =
      some ⟨0, (Mach.mk 0 0 (fun a => if a = 0 then 256 else 0)).ram (Int.ofNat 9 + 5),
        pushRam (Mach.mk 0 0 (fun a => if a = 0 then 256 else 0)).ram
          ((Mach.mk 0 0 (fun a => if a = 0 then 256 else 0)).ram (Int.ofNat 9 + 5))⟩) :=
  ⟨by decide, by decide,
    temp_over_range_warns newCodeWriter 9 (by decide) (fun _ => 0)
      (Mach.mk 0 0 (fun a => if a = 0 then 256 else 0)) (by decide)⟩

/-- C3: executing the parsed `return` emission on a concrete frame
(LCL = 305, ARG = 260, return value 99 at the stack top, saved bases 41-44
at 301-304, and the return address value 1234 stored at frame-5 = 300)
shows: the frame base is captured into R13 and the *location* frame-5 into
R14 (not the return address read from it), the return value lands at *ARG
with SP = ARG+1, the that/this/argument/local bases are restored from
offsets 1-4 below the frame — but the final jump lands at address 300
(frame-5 itself) instead of 1234 (the captured return address), refuting
the claim's capture-and-jump-to-return-address steps. -/
theorem return_jump_divergence :
    (runMany (fun _ => 0) (parseAsm (writeReturn newCodeWriter).out) 47
      ⟨⟨0, 0, fun a =>
        if a = 0 then 310 else if a = 1 then 305 else if a = 2 then 260
        else if a = 300 then 1234 else if a = 301 then 41
        else if a = 302 then 42 else if a = 303 then 43
        else if a = 304 then 44 else if a = 309 then 99 else 0⟩, 0⟩).pc = 300 ∧
    (runMany (fun _ => 0) (parseAsm (writeReturn newCodeWriter).out) 47
      ⟨⟨0, 0, fun a =>
        if a = 0 then 310 else if a = 1 then 305 else if a = 2 then 260
        else if a = 300 then 1234 else if a = 301 then 41
        else if a = 302 then 42 else if a = 303 then 43
        else if a = 304 then 44 else if a = 309 then 99 else 0⟩, 0⟩).mach.ram 300 =
      1234 ∧
    (runMany (fun _ => 0) (parseAsm (writeReturn newCodeWriter).out) 47
      ⟨⟨0, 0, fun a =>
        if a = 0 then 310 else if a = 1 then 305 else if a = 2 then 260
        else if a = 300 then 1234 else if a = 301 then 41
        else if a = 302 then 42 else if a = 303 then 43
        else if a = 304 then 44 else if a = 309 then 99 else 0⟩, 0⟩).mach.ram 13 =
      305 ∧
    (runMany (fun _ => 0) (parseAsm (writeReturn newCodeWriter).out) 47
      ⟨⟨0, 0, fun a =>
        if a = 0 then 310 else if a = 1 then 305 else if a = 2 then 260
        else if a = 300 then 1234 else if a = 301 then 41
        else if a = 302 then 42 else if a = 303 then 43
        else if a = 304 then 44 else if a = 309 then 99 else 0⟩, 0⟩).mach.ram 14 =
      300 ∧
    (runMany (fun _ => 0) (parseAsm (writeReturn newCodeWriter).out) 47
      ⟨⟨0, 0, fun a =>
        if a = 0 then 310 else if a = 1 then 305 else if a = 2 then 260
        else if a = 300 then 1234 else if a = 301 then 41
        else if a = 302 then 42 else if a = 303 then 43
        else if a = 304 then 44 else if a = 309 then 99 else 0⟩, 0⟩).mach.ram 260 =
      99 ∧
    (runMany (fun _ => 0) (parseAsm (writeReturn newCodeWriter).out) 47
      ⟨⟨0, 0, fun a =>
        if a = 0 then 310 else if a = 1 then 305 else if a = 2 then 260
        else if a = 300 then 1234 else if a = 301 then 41
        else if a = 302 then 42 else if a = 303 then 43
        else if a = 304 then 44 else if a = 309 then 99 else 0⟩, 0⟩).mach.ram 0 =
      261 ∧
    (runMany (fun _ => 0) (parseAsm (writeReturn newCodeWriter).out) 47
      ⟨⟨0, 0, fun a =>
        if a = 0 then 310 else if a = 1 then 305 else if a = 2 then 260
        else if a = 300 then 1234 else if a = 301 then 41
        else if a = 302 then 42 else if a = 303 then 43
        else if a = 304 then 44 else if a = 309 then 99 else 0⟩, 0⟩).mach.ram 4 =
      44 ∧
    (runMany (fun _ => 0) (parseAsm (writeReturn newCodeWriter).out) 47
      ⟨⟨0, 0, fun a =>
        if a = 0 then 310 else if a = 1 then 305 else if a = 2 then 260
        else if a = 300 then 1234 else if a = 301 then 41
        else if a = 302 then 42 else if a = 303 then 43
        else if a = 304 then 44 else if a = 309 then 99 else 0⟩, 0⟩).mach.ram 3 =
      43 ∧
    (runMany (fun _ => 0) (parseAsm (writeReturn newCodeWriter).out) 47
      ⟨⟨0, 0, fun a =>
        if a = 0 then 310 else if a = 1 then 305 else if a = 2 then 260
        else if a = 300 then 1234 else if a = 301 then 41
        else if a = 302 then 42 else if a = 303 then 43
        else if a = 304 then 44 else if a = 309 then 99 else 0⟩, 0⟩).mach.ram 2 =
      42 ∧
    (runMany (fun _ => 0) (parseAsm (writeReturn newCodeWriter).out) 47
      ⟨⟨0, 0, fun a =>
        if a = 0 then 310 else if a = 1 then 305 else if a = 2 then 260
        else if a = 300 then 1234 else if a = 301 then 41
        else if a = 302 then 42 else if a = 303 then 43
        else if a = 304 then 44 else if a = 309 then 99 else 0⟩, 0⟩).mach.ram 1 =
      41 := by
  refine ⟨?_, ?_, ?_, ?_, ?_, ?_, ?_, ?_, ?_, ?_⟩ <;> decide

theorem parseLine_space (l : List Char) : parseLine (' ' :: l) = parseLine l := by
  unfold parseLine
  have h1 : dropComment (' ' :: l) = ' ' :: dropComment l := by
    show (if (' ' = '/' ∧ l.head? = some '/') then [] else ' ' :: dropComment l) =
      ' ' :: dropComment l
    rw [if_neg]
    rintro ⟨h, -⟩
    exact absurd h (by decide)
  rw [h1]
  have h2 : trimChars (' ' :: dropComment l) = trimChars (dropComment l) := by
    unfold trimChars
    rw [List.dropWhile_cons, if_pos (by decide)]
  rw [h2]

theorem splitAtCh_none (sep : Char) (l : List Char) (h : ∀ c ∈ l, c ≠ sep) :
    splitAtCh sep l = none := by
  induction l with
  | nil => rfl
  | cons c rest ih =>
    show (if c = sep then some ([], rest)
      else (splitAtCh sep rest).map (fun p => (c :: p.1, p.2))) = none
    rw [if_neg (h c (List.mem_cons_self _ _)),
      ih (fun x hx => h x (List.mem_cons_of_mem _ hx))]
    rfl

theorem parseLine_djump (jmp : String) (hg : ∀ c ∈ jmp.data, goodCh c = true)
    (hne : ∀ c ∈ jmp.data, c ≠ '=') :
    parseLine (' ' :: 'D' :: ';' :: jmp.data) = some (.cinstr "" "D" jmp) := by
  rw [parseLine_space]
  have hgood : ∀ x ∈ ';' :: jmp.data, goodCh x = true := by
    intro x hx
    rcases List.mem_cons.mp hx with rfl | hx2
    · decide
    · exact hg x hx2
  rw [parseLine_clean 'D' (';' :: jmp.data) (by decide) hgood]
  unfold classifyLine
  rw [if_neg (by decide), if_neg (by decide)]
  have hne2 : ∀ x ∈ 'D' :: ';' :: jmp.data, x ≠ '=' := by
    intro x hx
    rcases List.mem_cons.mp hx with rfl | hx2
    · decide
    · rcases List.mem_cons.mp hx2 with rfl | hx3
      · decide
      · exact hne x hx3
  rw [splitAtCh_none '=' _ hne2]
  rfl

theorem isNumericStr_false_of_head {s : String} {c : Char} {r : List Char}
    (hd : s.data = c :: r) (hc : c.isDigit = false) : isNumericStr s = false := by
  unfold isNumericStr
  rw [hd]
  simp [hc]

theorem builtinVal_none_of_head {s : String} {c : Char} {r : List Char}
    (hd : s.data = c :: r)
    (h1 : c ≠ 'S') (h2 : c ≠ 'L') (h3 : c ≠ 'A') (h4 : c ≠ 'T') (h5 : c ≠ 'R') :
    builtinVal s = none := by
  unfold builtinVal
  split_ifs with g1 g2 g3 g4 g5 g6 g7 g8 <;>
    first
      | rfl
      | (exfalso
         subst_vars
         simp only [List.cons.injEq] at hd
         first
           | exact h1 hd.1.symm
           | exact h2 hd.1.symm
           | exact h4 hd.1.symm
           | exact h5 hd.1.symm
           | exact h3 hd.1.symm)

theorem IF_ne_ENDIF (p q : Nat) : ("IF" ++ Nat.repr p) ≠ ("ENDIF" ++ Nat.repr q) := by
  intro h
  have h2 := congrArg String.data h
  rw [String.data_append, String.data_append] at h2
  simp at h2

theorem data_IF (p : Nat) :
    ("IF" ++ Nat.repr p).data = 'I' :: 'F' :: (Nat.repr p).data := by
  rw [String.data_append]
  rfl

theorem data_ENDIF (p : Nat) :
    ("ENDIF" ++ Nat.repr p).data = 'E' :: 'N' :: 'D' :: 'I' :: 'F' :: (Nat.repr p).data := by
  rw [String.data_append]
  rfl

theorem labelAddr_IF (jmp : String) (p : Nat) :
    labelAddr (compareInstrs jmp p) ("IF" ++ Nat.repr p) = some 12 := by
  unfold labelAddr compareInstrs
  simp [labelAddrGo]

theorem labelAddr_ENDIF (jmp : String) (p : Nat) :
    labelAddr (compareInstrs jmp p) ("ENDIF" ++ Nat.repr (p + 1)) = some 13 := by
  unfold labelAddr compareInstrs
  simp [labelAddrGo, IF_ne_ENDIF p (p + 1)]

theorem resolveRun_IF (env : String → Int) (jmp : String) (p : Nat) :
    resolveRun env (compareInstrs jmp p) ("IF" ++ Nat.repr p) = 12 := by
  unfold resolveRun
  rw [isNumericStr_false_of_head (data_IF p) (by decide),
    builtinVal_none_of_head (data_IF p) (by decide) (by decide) (by decide)
      (by decide) (by decide),
    labelAddr_IF]
  rfl

theorem resolveRun_ENDIF (env : String → Int) (jmp : String) (p : Nat) :
    resolveRun env (compareInstrs jmp p) ("ENDIF" ++ Nat.repr (p + 1)) = 13 := by
  unfold resolveRun
  rw [isNumericStr_false_of_head (data_ENDIF (p + 1)) (by decide),
    builtinVal_none_of_head (data_ENDIF (p + 1)) (by decide) (by decide) (by decide)
      (by decide) (by decide),
    labelAddr_ENDIF]
  rfl

theorem runMany_step_some {env : String → Int} {prog : List Instr}
    {cfg cfg' : Config} {fuel : Nat} (h : step env prog cfg = some cfg') :
    runMany env prog (fuel + 1) cfg = runMany env prog fuel cfg' := by
  show (match step env prog cfg with
    | none => cfg
    | some c => runMany env prog fuel c) = runMany env prog fuel cfg'
  rw [h]

theorem run_compare_from7 (env : String → Int) (jmp : String) (p : Nat)
    (a0 d : Int) (r : Int → Int) (h0 : r 0 ≠ 0) (hjne : jmp ≠ "") :
    runMany env (compareInstrs jmp p) 13 ⟨⟨a0, d, r⟩, 7⟩ =
      ⟨⟨0, (if evalJump jmp d then -1 else 0),
        pushRam r (if evalJump jmp d then -1 else 0)⟩, 18⟩ := by
  have step7 : step env (compareInstrs jmp p) ⟨⟨a0, d, r⟩, 7⟩ =
      some ⟨⟨12, d, r⟩, 8⟩ := by
    show (some (Config.mk (Mach.mk (resolveRun env (compareInstrs jmp p)
        ("IF" ++ Nat.repr p)) d r) 8) : Option Config) =
      some (Config.mk (Mach.mk 12 d r) 8)
    rw [resolveRun_IF]
  cases hb : evalJump jmp d with
  | false =>
    have step8 : step env (compareInstrs jmp p) ⟨⟨12, d, r⟩, 8⟩ =
        some ⟨⟨12, d, r⟩, 9⟩ := by
      show (if jmp = "" then some (Config.mk (Mach.mk 12 d r) 9)
        else if evalJump jmp d = true then
          some (Config.mk (Mach.mk 12 d r) (Int.toNat 12))
        else some (Config.mk (Mach.mk 12 d r) 9)) =
        some (Config.mk (Mach.mk 12 d r) 9)
      rw [if_neg hjne, hb, if_neg (by decide)]
    have step10 : step env (compareInstrs jmp p) ⟨⟨12, 0, r⟩, 10⟩ =
        some ⟨⟨13, 0, r⟩, 11⟩ := by
      show (some (Config.mk (Mach.mk (resolveRun env (compareInstrs jmp p)
          ("ENDIF" ++ Nat.repr (p + 1))) 0 r) 11) : Option Config) =
        some (Config.mk (Mach.mk 13 0 r) 11)
      rw [resolveRun_ENDIF]
    have hrun : runMany env (compareInstrs jmp p) 13 ⟨⟨a0, d, r⟩, 7⟩ =
        ⟨⟨0, 0, Function.update (Function.update r (r 0) 0) 0
          ((Function.update r (r 0) 0) 0 + 1)⟩, 18⟩ :=
      calc runMany env (compareInstrs jmp p) 13 ⟨⟨a0, d, r⟩, 7⟩
          = runMany env (compareInstrs jmp p) 12 ⟨⟨12, d, r⟩, 8⟩ :=
            runMany_step_some step7
        _ = runMany env (compareInstrs jmp p) 11 ⟨⟨12, d, r⟩, 9⟩ :=
            runMany_step_some step8
        _ = runMany env (compareInstrs jmp p) 10 ⟨⟨12, 0, r⟩, 10⟩ := rfl
        _ = runMany env (compareInstrs jmp p) 9 ⟨⟨13, 0, r⟩, 11⟩ :=
            runMany_step_some step10
        _ = ⟨⟨0, 0, Function.update (Function.update r (r 0) 0) 0
              ((Function.update r (r 0) 0) 0 + 1)⟩, 18⟩ := rfl
    rw [hrun]
    unfold pushRam
    rw [Function.update_noteq (Ne.symm h0)]
    rfl
  | true =>
    have step8 : step env (compareInstrs jmp p) ⟨⟨12, d, r⟩, 8⟩ =
        some ⟨⟨12, d, r⟩, 12⟩ := by
      show (if jmp = "" then some (Config.mk (Mach.mk 12 d r) 9)
        else if evalJump jmp d = true then
          some (Config.mk (Mach.mk 12 d r) (Int.toNat 12))
        else some (Config.mk (Mach.mk 12 d r) 9)) =
        some (Config.mk (Mach.mk 12 d r) 12)
      rw [if_neg hjne, hb, if_pos rfl]
      rfl
    have hrun : runMany env (compareInstrs jmp p) 13 ⟨⟨a0, d, r⟩, 7⟩ =
        ⟨⟨0, -1, Function.update (Function.update r (r 0) (-1)) 0
          ((Function.update r (r 0) (-1)) 0 + 1)⟩, 18⟩ :=
      calc runMany env (compareInstrs jmp p) 13 ⟨⟨a0, d, r⟩, 7⟩
          = runMany env (compareInstrs jmp p) 12 ⟨⟨12, d, r⟩, 8⟩ :=
            runMany_step_some step7
        _ = runMany env (compareInstrs jmp p) 11 ⟨⟨12, d, r⟩, 12⟩ :=
            runMany_step_some step8
        _ = ⟨⟨0, -1, Function.update (Function.update r (r 0) (-1)) 0
              ((Function.update r (r 0) (-1)) 0 + 1)⟩, 18⟩ := rfl
    rw [hrun]
    unfold pushRam
    rw [Function.update_noteq (Ne.symm h0)]
    rfl

theorem run_compare (env : String → Int) (jmp : String) (p : Nat) (x y : Int)
    (hjne : jmp ≠ "") :
    ∃ mf : Mach,
      runMany env (compareInstrs jmp p) 20
        ⟨⟨0, 0, fun a => if a = 0 then 258 else if a = 256 then x
          else if a = 257 then y else 0⟩, 0⟩ = ⟨mf, 18⟩ ∧
      mf.ram 256 = (if evalJump jmp (y - x) then -1 else 0) ∧
      mf.ram 0 = 257 := by
  have h7 : runMany env (compareInstrs jmp p) 20
      ⟨⟨0, 0, fun a => if a = 0 then 258 else if a = 256 then x
        else if a = 257 then y else 0⟩, 0⟩ =
      runMany env (compareInstrs jmp p) 13
      ⟨⟨x, y - x,
        Function.update (Function.update
          (fun a => if a = 0 then 258 else if a = 256 then x
            else if a = 257 then y else 0) 0 257) 0 256⟩, 7⟩ := rfl
  rw [h7, run_compare_from7 env jmp p x (y - x) _ (by show (256:Int) ≠ 0; decide) hjne]
  exact ⟨_, rfl, rfl, rfl⟩

set_option maxRecDepth 4096 in
theorem parse_compareText (jmp : String) (p : Nat)
    (hg : ∀ c ∈ jmp.data, goodCh c = true) (hne : ∀ c ∈ jmp.data, c ≠ '=') :
    parseAsm (compareText jmp p) = compareInstrs jmp p := by
  have hIF : ∀ c ∈ ("IF" ++ Nat.repr p).data, goodCh c = true := by
    rw [data_IF]
    intro c hc
    rcases List.mem_cons.mp hc with rfl | hc2
    · decide
    · rcases List.mem_cons.mp hc2 with rfl | hc3
      · decide
      · exact repr_good p c hc3
  have hENDIF : ∀ c ∈ ("ENDIF" ++ Nat.repr (p + 1)).data, goodCh c = true := by
    rw [data_ENDIF]
    intro c hc
    rcases List.mem_cons.mp hc with rfl | hc2
    · decide
    · rcases List.mem_cons.mp hc2 with rfl | hc3
      · decide
      · rcases List.mem_cons.mp hc3 with rfl | hc4
        · decide
        · rcases List.mem_cons.mp hc4 with rfl | hc5
          · decide
          · rcases List.mem_cons.mp hc5 with rfl | hc6
            · decide
            · exact repr_good (p + 1) c hc6
  have hat1 : parseLine (' ' :: '@' :: ("IF" ++ Nat.repr p).data) =
      some (.addr ("IF" ++ Nat.repr p)) := by
    rw [parseLine_space]; exact parseLine_at _ hIF
  have hat2 : parseLine (' ' :: '@' :: ("ENDIF" ++ Nat.repr (p + 1)).data) =
      some (.addr ("ENDIF" ++ Nat.repr (p + 1))) := by
    rw [parseLine_space]; exact parseLine_at _ hENDIF
  have hlp1 : parseLine (' ' :: '(' :: (("IF" ++ Nat.repr p).data ++ [')'])) =
      some (.label ("IF" ++ Nat.repr p)) := by
    rw [parseLine_space]; exact parseLine_lparen _ hIF
  have hlp2 : parseLine (' ' :: '(' :: (("ENDIF" ++ Nat.repr (p + 1)).data ++ [')'])) =
      some (.label ("ENDIF" ++ Nat.repr (p + 1))) := by
    rw [parseLine_space]; exact parseLine_lparen _ hENDIF
  have hdata : (compareText jmp p).data = joinLines
      [("@SP" : String).data, (" AM=M-1" : String).data,
       (" D=M // pop D" : String).data,
       ("@SP" : String).data, (" AM=M-1" : String).data,
       (" A=M // pop A" : String).data,
       ("D=D-A" : String).data,
       (' ' :: '@' :: ("IF" ++ Nat.repr p).data),
       (' ' :: 'D' :: ';' :: jmp.data),
       (" D=0" : String).data,
       (' ' :: '@' :: ("ENDIF" ++ Nat.repr (p + 1)).data),
       (" 0;JMP" : String).data,
       (' ' :: '(' :: (("IF" ++ Nat.repr p).data ++ [')'])),
       (" D=-1" : String).data,
       (' ' :: '(' :: (("ENDIF" ++ Nat.repr (p + 1)).data ++ [')'])),
       ([] : List Char),
       ("@SP" : String).data, (" A=M" : String).data, (" M=D" : String).data,
       (" @SP" : String).data, (" M=M+1 // push D" : String).data,
       ("// if then" : String).data] := by
    simp [compareText, doStackOpTwo, popD, popA, decrementSp, pushD, joinLines,
      String.data_append]
  unfold parseAsm
  rw [hdata, parseChars_joinLines]
  · simp only [List.filterMap_cons,
      show parseLine (("@SP" : String).data) = some (.addr "SP") from rfl,
      show parseLine ((" AM=M-1" : String).data) =
        some (.cinstr "AM" "M-1" "") from rfl,
      show parseLine ((" D=M // pop D" : String).data) =
        some (.cinstr "D" "M" "") from rfl,
      show parseLine ((" A=M // pop A" : String).data) =
        some (.cinstr "A" "M" "") from rfl,
      show parseLine (("D=D-A" : String).data) =
        some (.cinstr "D" "D-A" "") from rfl,
      show parseLine ((" D=0" : String).data) = some (.cinstr "D" "0" "") from rfl,
      show parseLine ((" 0;JMP" : String).data) =
        some (.cinstr "" "0" "JMP") from rfl,
      show parseLine ((" D=-1" : String).data) = some (.cinstr "D" "-1" "") from rfl,
      show parseLine (([] : List Char)) = none from rfl,
      show parseLine ((" A=M" : String).data) = some (.cinstr "A" "M" "") from rfl,
      show parseLine ((" M=D" : String).data) = some (.cinstr "M" "D" "") from rfl,
      show parseLine ((" @SP" : String).data) = some (.addr "SP") from rfl,
      show parseLine ((" M=M+1 // push D" : String).data) =
        some (.cinstr "M" "M+1" "") from rfl,
      show parseLine (("// if then" : String).data) = none from rfl,
      hat1, hat2, hlp1, hlp2, parseLine_djump jmp hg hne,
      List.filterMap_nil]
    rfl
  · intro l hl
    simp only [List.mem_cons, List.not_mem_nil, or_false] at hl
    rcases hl with rfl | rfl | rfl | rfl | rfl | rfl | rfl | rfl | rfl | rfl | rfl |
      rfl | rfl | rfl | rfl | rfl | rfl | rfl | rfl | rfl | rfl | rfl <;>
      first
        | decide
        | (intro c hc
           rcases List.mem_cons.mp hc with rfl | hc2
           · decide
           · first
               | (rcases List.mem_cons.mp hc2 with rfl | hc3
                  · decide
                  · first
                      | exact goodCh_ne_nl (hIF c hc3)
                      | exact goodCh_ne_nl (hENDIF c hc3)
                      | (rcases List.mem_cons.mp hc3 with rfl | hc4
                         · decide
                         · exact goodCh_ne_nl (hg c hc4))
                      | (rcases List.mem_append.mp hc3 with h4 | h4
                         · first
                             | exact goodCh_ne_nl (hIF c h4)
                             | exact goodCh_ne_nl (hENDIF c h4)
                         · simp only [List.mem_singleton] at h4
                           subst h4; decide)))

/-- C8: for every emission of a comparison operator (eq, gt, lt), the
emitter writes the comparison template at the current output-stream write
position p: the generated assembly parses to `compareInstrs jmp p`, whose
two forward-branch labels embed p as IF{p} and ENDIF{p+1} (distinct from
each other, and distinct from the labels any other write position would
produce); executing it on a stack holding x below y pops both operands and
pushes all-one-bits (-1) when the comparison holds and all-zero-bits (0)
otherwise. -/
theorem compare_emission (w : CodeWriter) (cmd : String)
    (hcmd : cmd = "eq" ∨ cmd = "gt" ∨ cmd = "lt")
    (env : String → Int) (x y : Int) :
    ∃ jmp : String,
      writeArithmetic w cmd =
        some (appendOut w (compareText jmp w.out.length)) ∧
      parseAsm (compareText jmp w.out.length) =
        compareInstrs jmp w.out.length ∧
      (compareInstrs jmp w.out.length)[12]? =
        some (.label ("IF" ++ Nat.repr w.out.length)) ∧
      (compareInstrs jmp w.out.length)[14]? =
        some (.label ("ENDIF" ++ Nat.repr (w.out.length + 1))) ∧
      (∀ q : Nat, q ≠ w.out.length →
        ("IF" ++ Nat.repr w.out.length) ≠ ("IF" ++ Nat.repr q) ∧
        ("ENDIF" ++ Nat.repr (w.out.length + 1)) ≠ ("ENDIF" ++ Nat.repr (q + 1))) ∧
      ("IF" ++ Nat.repr w.out.length) ≠
        ("ENDIF" ++ Nat.repr (w.out.length + 1)) ∧
      ∃ mf : Mach,
        runMany env (compareInstrs jmp w.out.length) 20
          ⟨⟨0, 0, fun a => if a = 0 then 258 else if a = 256 then x
            else if a = 257 then y else 0⟩, 0⟩ = ⟨mf, 18⟩ ∧
        mf.ram 0 = 257 ∧
        mf.ram 256 = (if (cmd = "eq" ∧ x = y) ∨ (cmd = "gt" ∧ y < x) ∨
          (cmd = "lt" ∧ x < y) then -1 else 0) := by
  have huniq : ∀ q : Nat, q ≠ w.out.length →
      ("IF" ++ Nat.repr w.out.length) ≠ ("IF" ++ Nat.repr q) ∧
      ("ENDIF" ++ Nat.repr (w.out.length + 1)) ≠ ("ENDIF" ++ Nat.repr (q + 1)) := by
    refine fun q hq => ⟨fun h => hq ?_, fun h => hq ?_⟩
    · exact (natRepr_injective (string_append_left_cancel h)).symm
    · have := natRepr_injective (string_append_left_cancel h); omega
  rcases hcmd with rfl | rfl | rfl
  · obtain ⟨mf, hrun, h256, h0⟩ := run_compare env "JEQ" w.out.length x y (by decide)
    refine ⟨"JEQ", rfl, parse_compareText "JEQ" w.out.length (by decide) (by decide),
      rfl, rfl, huniq, IF_ne_ENDIF _ _, mf, hrun, h0, ?_⟩
    rw [h256]
    refine if_congr ?_ rfl rfl
    have hd : (evalJump "JEQ" (y - x) = true) ↔ (y - x = 0) := by
      show (decide (y - x = 0) = true) ↔ (y - x = 0)
      exact decide_eq_true_iff
    rw [hd]
    constructor
    · intro h; exact Or.inl ⟨rfl, by omega⟩
    · rintro (⟨-, h⟩ | ⟨h, -⟩ | ⟨h, -⟩)
      · omega
      · exact absurd h (by decide)
      · exact absurd h (by decide)
  · obtain ⟨mf, hrun, h256, h0⟩ := run_compare env "JLT" w.out.length x y (by decide)
    refine ⟨"JLT", rfl, parse_compareText "JLT" w.out.length (by decide) (by decide),
      rfl, rfl, huniq, IF_ne_ENDIF _ _, mf, hrun, h0, ?_⟩
    rw [h256]
    refine if_congr ?_ rfl rfl
    have hd : (evalJump "JLT" (y - x) = true) ↔ (y - x < 0) := by
      show (decide (y - x < 0) = true) ↔ (y - x < 0)
      exact decide_eq_true_iff
    rw [hd]
    constructor
    · intro h; exact Or.inr (Or.inl ⟨rfl, by omega⟩)
    · rintro (⟨h, -⟩ | ⟨-, h⟩ | ⟨h, -⟩)
      · exact absurd h (by decide)
      · omega
      · exact absurd h (by decide)
  · obtain ⟨mf, hrun, h256, h0⟩ := run_compare env "JGT" w.out.length x y (by decide)
    refine ⟨"JGT", rfl, parse_compareText "JGT" w.out.length (by decide) (by decide),
      rfl, rfl, huniq, IF_ne_ENDIF _ _, mf, hrun, h0, ?_⟩
    rw [h256]
    refine if_congr ?_ rfl rfl
    have hd : (evalJump "JGT" (y - x) = true) ↔ (0 < y - x) := by
      show (decide (0 < y - x) = true) ↔ (0 < y - x)
      exact decide_eq_true_iff
    rw [hd]
    constructor
    · intro h; exact Or.inr (Or.inr ⟨rfl, by omega⟩)
    · rintro (⟨h, -⟩ | ⟨h, -⟩ | ⟨-, h⟩)
      · exact absurd h (by decide)
      · exact absurd h (by decide)
      · omega

theorem compare_emission_witness :
    ∃ jmp : String,
      writeArithmetic newCodeWriter "eq" =
        some (appendOut newCodeWriter (compareText jmp newCodeWriter.out.length)) ∧
      parseAsm (compareText jmp newCodeWriter.out.length) =
        compareInstrs jmp newCodeWriter.out.length ∧
      (compareInstrs jmp newCodeWriter.out.length)[12]? =
        some (.label ("IF" ++ Nat.repr newCodeWriter.out.length)) ∧
      (compareInstrs jmp newCodeWriter.out.length)[14]? =
        some (.label ("ENDIF" ++ Nat.repr (newCodeWriter.out.length + 1))) ∧
      (∀ q : Nat, q ≠ newCodeWriter.out.length →
        ("IF" ++ Nat.repr newCodeWriter.out.length) ≠ ("IF" ++ Nat.repr q) ∧
        ("ENDIF" ++ Nat.repr (newCodeWriter.out.length + 1)) ≠
          ("ENDIF" ++ Nat.repr (q + 1))) ∧
      ("IF" ++ Nat.repr newCodeWriter.out.length) ≠
        ("ENDIF" ++ Nat.repr (newCodeWriter.out.length + 1)) ∧
      ∃ mf : Mach,
        runMany (fun _ => 0) (compareInstrs jmp newCodeWriter.out.length) 20
          ⟨⟨0, 0, fun a => if a = 0 then 258 else if a = 256 then 3
            else if a = 257 then 3 else 0⟩, 0⟩ = ⟨mf, 18⟩ ∧
        mf.ram 0 = 257 ∧
        mf.ram 256 = (if (("eq" : String) = "eq" ∧ (3 : Int) = 3) ∨
          (("eq" : String) = "gt" ∧ (3 : Int) < 3) ∨
          (("eq" : String) = "lt" ∧ (3 : Int) < 3) then -1 else 0) :=
  compare_emission newCodeWriter "eq" (Or.inl rfl) (fun _ => 0) 3 3
